import Mathlib

/-!
Verification of the PDF-layout extraction engine of the Wudinna District
Council development-application scraper (`scraper.js`, TypeScript generation,
lines 469-1299).  JavaScript numbers are modelled by exact rationals `ℚ`;
all concrete inputs used below are small integers or simple fractions, where
IEEE-754 double arithmetic is exact, so the model agrees with the source on
every computation appearing in a theorem of this file.  JavaScript division
by zero (`Infinity`) never occurs in those computations: every division in
the source reached here is guarded by an explicit zero test or applied to a
nonzero denominator.

Arithmetic is written through kernel-reducible wrappers `qadd`, `qsub`,
`qmul`, `qdiv`, `qmax`, `qmin` (the Batteries `Rat` operations are
`@[irreducible]`, which would block `decide`); the simp lemmas `qadd_eq`
etc. identify them with the ordinary field operations for symbolic proofs.
-/

namespace Scraper

/-- Kernel-reducible addition on `ℚ` (identical to `+`, see `qadd_eq`). -/
def qadd (a b : ℚ) : ℚ := mkRat (a.num * b.den + b.num * a.den) (a.den * b.den)

/-- Kernel-reducible subtraction on `ℚ` (identical to `-`, see `qsub_eq`). -/
def qsub (a b : ℚ) : ℚ := mkRat (a.num * b.den - b.num * a.den) (a.den * b.den)

/-- Kernel-reducible multiplication on `ℚ` (identical to `*`, see `qmul_eq`). -/
def qmul (a b : ℚ) : ℚ := mkRat (a.num * b.num) (a.den * b.den)

/-- Kernel-reducible division on `ℚ` (identical to `/`, see `qdiv_eq`). -/
def qdiv (a b : ℚ) : ℚ := Rat.divInt (a.num * b.den) (a.den * b.num)

/-- Kernel-reducible maximum on `ℚ`, modelling `Math.max`. -/
def qmax (a b : ℚ) : ℚ := if a ≤ b then b else a

/-- Kernel-reducible minimum on `ℚ`, modelling `Math.min`. -/
def qmin (a b : ℚ) : ℚ := if a ≤ b then a else b

/-- Coordinate-equality tolerance used throughout the scraper
(`const Tolerance = 3`, scraper.js line 490). -/
def Tolerance : ℚ := 3

/-- Model of JavaScript `Number.MAX_VALUE`, the largest finite double
`(2^53 - 1) * 2^971`, written as an explicit numeral so that the kernel can
evaluate with it (see `maxValue_eq` below for the certificate). -/
def maxValue : ℚ := mkRat 179769313486231570814527423731704356798070567525844996598917476803157260780028538760589558632766878171540458953514382464234321326889464182768467546703537516986049910576551282076245490090389328944075868508455133942304583236903222948165808559332123348274797826204144723168738177180919299881250404026184124858368 1

/-- A point `{x, y}` in page space. -/
structure Point where
  x : ℚ
  y : ℚ
deriving DecidableEq

/-- A line `{x1, y1, x2, y2}` (scraper.js `interface Line`). -/
structure Line where
  x1 : ℚ
  y1 : ℚ
  x2 : ℚ
  y2 : ℚ
deriving DecidableEq

/-- An axis-aligned rectangle `{x, y, width, height}`
(scraper.js `interface Rectangle`). -/
structure Rectangle where
  x : ℚ
  y : ℚ
  width : ℚ
  height : ℚ
deriving DecidableEq

/-- A text element: a rectangle plus its text (scraper.js `interface Element`). -/
structure Element where
  text : String
  x : ℚ
  y : ℚ
  width : ℚ
  height : ℚ
deriving DecidableEq

/-- A grid cell: a rectangle owning a list of elements
(scraper.js `interface Cell`). -/
structure Cell where
  x : ℚ
  y : ℚ
  width : ℚ
  height : ℚ
  elements : List Element
deriving DecidableEq

/-- Bounding rectangle of an element. -/
def Element.toRect (e : Element) : Rectangle := ⟨e.x, e.y, e.width, e.height⟩

/-- Bounding rectangle of a cell. -/
def Cell.toRect (c : Cell) : Rectangle := ⟨c.x, c.y, c.width, c.height⟩

/-- Translation of `intersectRectangles` (scraper.js lines 606-615). -/
def intersectRectangles (rectangle1 rectangle2 : Rectangle) : Rectangle :=
  let x1 := qmax rectangle1.x rectangle2.x
  let y1 := qmax rectangle1.y rectangle2.y
  let x2 := qmin (qadd rectangle1.x rectangle1.width) (qadd rectangle2.x rectangle2.width)
  let y2 := qmin (qadd rectangle1.y rectangle1.height) (qadd rectangle2.y rectangle2.height)
  if x1 ≤ x2 ∧ y1 ≤ y2 then
    ⟨x1, y1, qsub x2 x1, qsub y2 y1⟩
  else
    ⟨0, 0, 0, 0⟩

/-- Translation of `union` (scraper.js lines 596-602).  Note that line 598 of
the source reads `Math.min(rectangle1.y, rectangle1.y)` — the second argument
is `rectangle1.y`, not `rectangle2.y` — and the translation preserves this. -/
def union (rectangle1 rectangle2 : Rectangle) : Rectangle :=
  let x := qmin rectangle1.x rectangle2.x
  let y := qmin rectangle1.y rectangle1.y
  let width :=
    qmax (qsub (qmax (qadd rectangle1.x rectangle1.width)
                     (qadd rectangle2.x rectangle2.width)) x) 0
  let height :=
    qmax (qsub (qmax (qadd rectangle1.y rectangle1.height)
                     (qadd rectangle2.y rectangle2.height)) y) 0
  ⟨x, y, width, height⟩

/-- Specification-side definition ("smallest rectangle covering both"): `R`
covers `r` when every point of `r` lies in `R`. -/
def coversRect (R r : Rectangle) : Prop :=
  R.x ≤ r.x ∧ R.y ≤ r.y ∧
  r.x + r.width ≤ R.x + R.width ∧ r.y + r.height ≤ R.y + R.height

/-- Translation of `intersectLines` (scraper.js lines 619-636), including the
denominator expression of line 623 exactly as written in the source. -/
def intersectLines (line1 line2 : Line) (onlyWithinLineSegments : Bool) :
    Option Point :=
  if (line1.x1 = line1.x2 ∧ line1.y1 = line1.y2) ∨
     (line2.x1 = line2.x2 ∧ line2.y1 = line2.y2) then
    none
  else
    let denominator :=
      qsub (qmul (qsub line2.y2 line2.y1) (qsub line1.x2 line1.x1))
           (qmul (qsub line1.x2 line1.x1) (qsub line1.y2 line1.y1))
    if denominator = 0 then
      none
    else
      let distance1 :=
        qdiv (qsub (qmul (qsub line2.x2 line2.x1) (qsub line1.y1 line2.y1))
                   (qmul (qsub line2.y2 line2.y1) (qsub line1.x1 line2.x1)))
             denominator
      let distance2 :=
        qdiv (qsub (qmul (qsub line1.x2 line1.x1) (qsub line1.y1 line2.y1))
                   (qmul (qsub line1.y2 line1.y1) (qsub line1.x1 line2.x1)))
             denominator
      if onlyWithinLineSegments ∧
         (distance1 < 0 ∨ distance1 > 1 ∨ distance2 < 0 ∨ distance2 > 1) then
        none
      else
        some ⟨qadd line1.x1 (qmul distance1 (qsub line1.x2 line1.x1)),
              qadd line1.y1 (qmul distance1 (qsub line1.y2 line1.y1))⟩

/-- Specification-side definition: two segments are parallel when the cross
product of their direction vectors vanishes. -/
def isParallel (l1 l2 : Line) : Prop :=
  (l1.x2 - l1.x1) * (l2.y2 - l2.y1) = (l1.y2 - l1.y1) * (l2.x2 - l2.x1)

/-- Translation of `getArea` (scraper.js lines 672-674). -/
def getArea (rectangle : Rectangle) : ℚ := qmul rectangle.width rectangle.height

/-- Translation of `getPercentageOfElementInCell` (scraper.js lines 654-658). -/
def getPercentageOfElementInCell (element : Element) (cell : Cell) : ℚ :=
  let elementArea := getArea element.toRect
  let intersectionArea := getArea (intersectRectangles cell.toRect element.toRect)
  if elementArea = 0 then 0 else qdiv (qmul intersectionArea 100) elementArea

/-- Translation of `getPercentageOfElementInRectangle`
(scraper.js lines 664-668). -/
def getPercentageOfElementInRectangle (element : Element) (rectangle : Rectangle) : ℚ :=
  let elementArea := getArea element.toRect
  let intersectionArea := getArea (intersectRectangles rectangle element.toRect)
  if elementArea = 0 then 0 else qdiv (qmul intersectionArea 100) elementArea

/-- Test for the JavaScript regex class `\s` (the source only ever meets
ASCII text, where `\s` matches exactly these characters). -/
def isJsWhitespace (c : Char) : Bool :=
  c == ' ' || c == '\t' || c == '\n' || c == '\r'

/-- Test for the regex class `[\s,\-_]` used by the fuzzy matchers. -/
def isCondensedAway (c : Char) : Bool :=
  isJsWhitespace c || c == ',' || c == '-' || c == '_'

/-- Model of `.replace(/[\s,\-_]/g, "").toLowerCase()`
(scraper.js lines 724, 739, 806). -/
def condense (s : List Char) : List Char :=
  (s.filter (fun c => !isCondensedAway c)).map Char.toLower

/-- Model of `.replace(/\s/g, "")`. -/
def stripWhitespace (s : List Char) : List Char :=
  s.filter (fun c => !isJsWhitespace c)

/-- Model of JavaScript `String.prototype.trim` for ASCII text. -/
def jsTrim (s : List Char) : List Char :=
  ((s.dropWhile isJsWhitespace).reverse.dropWhile isJsWhitespace).reverse

/-- Worker for `collapseWhitespace`; the flag records whether the scan is
inside a whitespace run whose single replacement space was already output. -/
def collapseGo : List Char → Bool → List Char
  | [], _ => []
  | c :: rest, true =>
    if isJsWhitespace c then collapseGo rest true
    else c :: collapseGo rest false
  | c :: rest, false =>
    if isJsWhitespace c then
      match rest with
      | [] => [c]
      | d :: _ =>
        if isJsWhitespace d then ' ' :: collapseGo rest true
        else c :: collapseGo rest false
    else c :: collapseGo rest false

/-- Model of `.replace(/\s\s+/g, " ")`: every run of two or more whitespace
characters becomes a single space; lone whitespace characters are kept. -/
def collapseWhitespace (s : List Char) : List Char := collapseGo s false

/-- First-character test of `.startsWith(firstCharacter)` where
`firstCharacter` is a one-character string. -/
def startsWithChar (s : List Char) (c : Char) : Bool :=
  match s with
  | [] => false
  | d :: _ => d == c

/-- Concatenation `list.map(element => element.text).join("")`. -/
def elementsText (l : List Element) : List Char :=
  (l.map (fun e => e.text.data)).flatten

/-- Worker for `lev` handling one character of the first string; `f` is the
distance function for the remaining suffix of the first string. -/
def levGo (x : Char) (f : List Char → Nat) : List Char → Nat
  | [] => f [] + 1
  | y :: ys => if x = y then f ys else 1 + min (f (y :: ys)) (min (levGo x f ys) (f ys))

/-- Levenshtein edit distance between two character lists, by the textbook
recurrence (structural recursion, so concrete distances evaluate in the
kernel).  `lev (x :: xs) (y :: ys)` unfolds to
`if x = y then lev xs ys else 1 + min (lev xs (y :: ys)) (min (lev (x :: xs) ys) (lev xs ys))`. -/
def lev : List Char → List Char → Nat
  | [], ys => ys.length
  | x :: xs, ys => levGo x (lev xs) ys

/-- Modelled from the spec: the external `didyoumean2` matcher invoked with
`thresholdType: EDIT_DISTANCE, threshold: t, caseSensitive: false` succeeds
exactly when the Levenshtein distance between the (lower-cased) strings is at
most `t` (spec section 4.5: "approximate match within edit-distance 1 (rank 1),
or within edit-distance 2 (rank 2)").  Both call sites pass an already
lower-cased candidate and target, so the case folding is the identity and is
omitted.  `matchRank` is the rank cascade of scraper.js lines 810-815 and
744-749: exact equality gives rank 0, otherwise distance ≤ 1 gives rank 1,
otherwise distance ≤ 2 gives rank 2, otherwise there is no match. -/
def matchRank (text targetLower : List Char) : Option Nat :=
  if text = targetLower then some 0
  else if lev text targetLower ≤ 1 then some 1
  else if lev text targetLower ≤ 2 then some 2
  else none

/-- Translation of `calculateDistance` (scraper.js lines 678-684): squared
distance between the mid-right point of `element1` and the mid-left point of
`element2`, or `Number.MAX_VALUE` when `element2` starts too far to the left. -/
def calculateDistance (element1 element2 : Element) : ℚ :=
  let point1x := qadd element1.x element1.width
  let point1y := qadd element1.y (qdiv element1.height 2)
  let point2x := element2.x
  let point2y := qadd element2.y (qdiv element2.height 2)
  if point2x < qsub point1x (qdiv element1.width 5) then maxValue
  else
    qadd (qmul (qsub point2x point1x) (qsub point2x point1x))
         (qmul (qsub point2y point1y) (qsub point2y point1y))

/-- Translation of `isVerticalOverlap` (scraper.js lines 688-690). -/
def isVerticalOverlap (element1 element2 : Element) : Bool :=
  decide (element2.y < qadd element1.y element1.height) &&
  decide (qadd element2.y element2.height > element1.y)

/-- Translation of `getVerticalOverlapPercentage` (scraper.js lines 696-700).
The source divides by `element2.height` unguarded; in this model a zero
height yields `0` (JavaScript would yield an infinite value), and no theorem
below evaluates this function on a zero-height `element2`. -/
def getVerticalOverlapPercentage (element1 element2 : Element) : ℚ :=
  let y1 := qmax element1.y element2.y
  let y2 := qmin (qadd element1.y element1.height) (qadd element2.y element2.height)
  if y2 < y1 then 0 else qdiv (qmul (qsub y2 y1) 100) element2.height

/-- Translation of `getRightElement` (scraper.js lines 705-715).  The
source's sentinel `closestElement` (`text: undefined, x/y: MAX_VALUE`) is
modelled by `none`, with the sentinel's distance reproduced exactly when no
candidate has been accepted yet. -/
def getRightElement (elements : List Element) (element : Element) : Option Element :=
  elements.foldl
    (fun closest rightElement =>
      let closestDistance :=
        match closest with
        | none => calculateDistance element ⟨"", maxValue, maxValue, 0, 0⟩
        | some c => calculateDistance element c
      if isVerticalOverlap element rightElement = true ∧
         getVerticalOverlapPercentage element rightElement > 50 ∧
         rightElement.x > qsub (qadd element.x element.width) Tolerance ∧
         qsub rightElement.x (qadd element.x element.width) < 30 ∧
         calculateDistance element rightElement < closestDistance then
        some rightElement
      else closest)
    none

/-- Translation of `getRowTop` (scraper.js lines 584-592). -/
def getRowTop (elements : List Element) (startElement : Element) : ℚ :=
  elements.foldl
    (fun top element =>
      if element.y < qadd startElement.y startElement.height ∧
         qadd element.y element.height > startElement.y then
        if getVerticalOverlapPercentage startElement element > 50 then
          if element.y < top then element.y else top
        else top
      else top)
    startElement.y

/-- The anchor label `FindText` of `findStartElements` (scraper.js line 787). -/
def FindText : List Char := "APPLICATIONNO:".data

/-- Lower-cased `FindText`. -/
def FindTextLower : List Char := "applicationno:".data

/-- One recorded candidate match of the `findStartElements` loop:
the element pushed at scraper.js lines 811/813/815 (the element reached last
in the rightward walk), its rank, and the normalized concatenation. -/
structure StartMatch where
  element : Element
  threshold : Nat
  text : List Char
deriving DecidableEq

/-- Translation of the rightward-walk `do`/`while` loop of
`findStartElements` (scraper.js lines 801-819).  `fuel` (initially 5)
mirrors the `rightElements.length < 5` bound; the `0` branch is unreachable
with that initialization. -/
def findStartLoop (elements : List Element) :
    Nat → Element → List Element → List StartMatch → List StartMatch
  | fuel, rightElement, rightElements0, ms0 =>
    let rightElements := rightElements0 ++ [rightElement]
    let text := condense (elementsText rightElements)
    if text.length > FindText.length + 2 then ms0
    else
      let ms :=
        if FindText.length - 2 ≤ text.length then
          match matchRank text FindTextLower with
          | some rank => ms0 ++ [⟨rightElement, rank, text⟩]
          | none => ms0
        else ms0
      match fuel with
      | 0 => ms
      | n + 1 =>
        match getRightElement elements rightElement with
        | none => ms
        | some next =>
          if rightElements.length < 5 then
            findStartLoop elements n next rightElements ms
          else ms

/-- Translation of the best-match `reduce` of `findStartElements`
(scraper.js lines 824-827): lowest rank wins, ties broken by the trimmed
concatenation length closest to `FindText.length`. -/
def chooseBestStartMatch (ms : List StartMatch) : Option StartMatch :=
  ms.foldl
    (fun previous current =>
      match previous with
      | none => some current
      | some prev =>
        if current.threshold < prev.threshold ∨
           (current.threshold = prev.threshold ∧
            (((jsTrim current.text).length : ℤ) - (FindText.length : ℤ)).natAbs <
              (((jsTrim prev.text).length : ℤ) - (FindText.length : ℤ)).natAbs) then
          some current
        else some prev)
    none

/-- Translation of `findStartElements` (scraper.js lines 786-837): for every
element whose trimmed, lower-cased text starts with `'a'`, walk rightward
collecting candidate concatenations, record fuzzy matches, keep the best
match's element, and finally sort the collected start elements by `y`
(`Array.prototype.sort` is stable and the comparer orders by `y` alone, which
a stable insertion sort by `y ≤ y` reproduces). -/
def findStartElements (elements : List Element) : List Element :=
  let startElements :=
    elements.foldl
      (fun acc element =>
        if startsWithChar ((jsTrim element.text.data).map Char.toLower) 'a' then
          match chooseBestStartMatch (findStartLoop elements 5 element [] []) with
          | some best => acc ++ [best.element]
          | none => acc
        else acc)
      []
  List.insertionSort (fun a b => a.y ≤ b.y) startElements

/-- One recorded candidate match of the `findTextBounds` loop
(scraper.js lines 745/747/749): the whole element run, its rank, and the
normalized concatenation. -/
structure BoundsMatch where
  elements : List Element
  threshold : Nat
  text : List Char
deriving DecidableEq

/-- Translation of the rightward-walk `do`/`while` loop of `findTextBounds`
(scraper.js lines 736-753), analogous to `findStartLoop`. -/
def findTextLoop (elements : List Element) (condensedText : List Char) :
    Nat → Element → List Element → List BoundsMatch → List BoundsMatch
  | fuel, rightElement, rightElements0, ms0 =>
    let rightElements := rightElements0 ++ [rightElement]
    let currentText := condense (elementsText rightElements)
    if currentText.length > condensedText.length + 2 then ms0
    else
      let ms :=
        if condensedText.length - 2 ≤ currentText.length then
          match matchRank currentText condensedText with
          | some rank => ms0 ++ [⟨rightElements, rank, currentText⟩]
          | none => ms0
        else ms0
      match fuel with
      | 0 => ms
      | n + 1 =>
        match getRightElement elements rightElement with
        | none => ms
        | some next =>
          if rightElements.length < 5 then
            findTextLoop elements condensedText n next rightElements ms
          else ms

/-- Translation of the best-match `reduce` of `findTextBounds`
(scraper.js lines 766-769); ties are broken against `condensedText.length`. -/
def chooseBestBoundsMatch (condensedText : List Char) (ms : List BoundsMatch) :
    Option BoundsMatch :=
  ms.foldl
    (fun previous current =>
      match previous with
      | none => some current
      | some prev =>
        if current.threshold < prev.threshold ∨
           (current.threshold = prev.threshold ∧
            (((jsTrim current.text).length : ℤ) - (condensedText.length : ℤ)).natAbs <
              (((jsTrim prev.text).length : ℤ) - (condensedText.length : ℤ)).natAbs) then
          some current
        else some prev)
    none

/-- Translation of `findTextBounds` (scraper.js lines 720-780).  Unlike
`findStartElements`, a single `matches` list is accumulated across all
starting elements and one overall best match is chosen; the returned
rectangle is the union of the bounds of the best match's elements.  Every
recorded match holds at least one element, so the source's final
`rectangle.x` dereference cannot fail; the model returns `none` in that
unreachable case. -/
def findTextBounds (elements : List Element) (text : String) : Option Rectangle :=
  let condensedText := condense text.data
  let firstCharacter := condensedText.headD ' '
  let ms :=
    elements.foldl
      (fun acc element =>
        if startsWithChar ((jsTrim element.text.data).map Char.toLower) firstCharacter then
          findTextLoop elements condensedText 5 element [] acc
        else acc)
      []
  match chooseBestBoundsMatch condensedText ms with
  | none => none
  | some bestMatch =>
    let rectangle :=
      bestMatch.elements.foldl
        (fun racc element =>
          match racc with
          | none => some element.toRect
          | some r => some (union r element.toRect))
        none
    match rectangle with
    | none => none
    | some r => some ⟨r.x, r.y, r.width, r.height⟩

/-- A parsed development-application record (the object constructed at
scraper.js lines 903-911). -/
structure DevelopmentApplication where
  applicationNumber : String
  address : String
  description : String
  informationUrl : String
  commentUrl : String
  scrapeDate : String
  receivedDate : String
deriving DecidableEq

/-- A thrown JavaScript runtime error.  The only error reachable in the
translated code is the `TypeError` raised by reading a property of
`undefined`. -/
inductive JsError where
  | typeError
deriving DecidableEq

/-- The fixed comment URL (scraper.js line 488). -/
def CommentUrl : String := "mailto:admin@wudinna.sa.gov.au"

/-- Model of `.replace(/^:/, "")`: remove one leading colon. -/
def stripLeadingColon : List Char → List Char
  | ':' :: rest => rest
  | s => s

/-- Split a character list at every occurrence of `sep` (model of
`String.prototype.split` for a single-character separator). -/
def splitOn (sep : Char) : List Char → List (List Char)
  | [] => [[]]
  | d :: rest =>
    match splitOn sep rest with
    | [] => [[]]
    | h :: t => if d = sep then [] :: h :: t else (d :: h) :: t

/-- Numeric value of a digit string. -/
def digitsVal (s : List Char) : Nat := s.foldl (fun a c => a * 10 + (c.toNat - 48)) 0

/-- Gregorian leap-year test. -/
def isLeapYear (y : Nat) : Bool := (y % 4 = 0 && y % 100 ≠ 0) || y % 400 = 0

/-- Days in a month of the Gregorian calendar. -/
def daysInMonth (m y : Nat) : Nat :=
  if m = 2 then (if isLeapYear y then 29 else 28)
  else if m = 4 ∨ m = 6 ∨ m = 9 ∨ m = 11 then 30
  else 31

/-- Modelled from the spec: the external moment.js library called as
`moment(text, ["D/M/YYYY", "D/M/YY"], true)` (strict mode), scraper.js
line 882 — "the lodged date is parsed against an explicit ordered list of
accepted date patterns and is considered absent (not an error) if parsing
fails" (spec section 4.6).  A strict match is day `1-2` digits, month `1-2`
digits, year `4` digits (first pattern) or `2` digits (second pattern,
mapped to 2000-2068/1969-1999 by moment's pivot 68), with the day valid for
the calendar month. -/
def parseMomentDate (s : List Char) : Option (Nat × Nat × Nat) :=
  match splitOn '/' s with
  | [ds, ms, ys] =>
    if ds ≠ [] ∧ ds.length ≤ 2 ∧ ds.all Char.isDigit ∧
       ms ≠ [] ∧ ms.length ≤ 2 ∧ ms.all Char.isDigit ∧
       (ys.length = 4 ∨ ys.length = 2) ∧ ys.all Char.isDigit then
      let d := digitsVal ds
      let m := digitsVal ms
      let y0 := digitsVal ys
      let y := if ys.length = 2 then (if y0 ≤ 68 then 2000 + y0 else 1900 + y0) else y0
      if 1 ≤ m ∧ m ≤ 12 ∧ 1 ≤ d ∧ d ≤ daysInMonth m y then some (y, m, d) else none
    else none
  | _ => none

/-- Two-digit zero padding. -/
def pad2 (n : Nat) : List Char :=
  if n < 10 then '0' :: Nat.toDigits 10 n else Nat.toDigits 10 n

/-- Model of moment's `.format("YYYY-MM-DD")` on a valid parsed date. -/
def formatDate : Nat × Nat × Nat → String
  | (y, m, d) => ⟨Nat.toDigits 10 y ++ '-' :: pad2 m ++ '-' :: pad2 d⟩

/-- Label text of a cell as compared by `parseApplicationElements`:
`cell.elements.map(element => element.text).join("").replace(/\s/g, "").toUpperCase()`
(scraper.js lines 843-845). -/
def cellCondensedUpper (c : Cell) : List Char :=
  (stripWhitespace (elementsText c.elements)).map Char.toUpper

/-- Value-cell lookup shared by the description, date-lodged and address
fields (scraper.js lines 872, 880, 893): the first cell whose top-left
corner is within `Tolerance` (by squared distance) of the heading cell's
top-right corner. -/
def findAdjacentCell (cells : List Cell) (headingCell : Cell) : Option Cell :=
  cells.find? (fun c =>
    decide (qadd (qmul (qsub (qadd headingCell.x headingCell.width) c.x)
                       (qsub (qadd headingCell.x headingCell.width) c.x))
                 (qmul (qsub headingCell.y c.y) (qsub headingCell.y c.y))
            < qmul Tolerance Tolerance))

/-- Translation of `parseApplicationElements` (scraper.js lines 841-912).
`scrapeDate` models the ambient clock read by `moment().format("YYYY-MM-DD")`.
A successful run yields `.ok (some record)`; a diagnosed structural absence
(missing "APPLICATION NO:" heading, blank application number, missing
"DEVELOPMENT ADDRESS:" heading, blank address) yields `.ok none`; reading
`.elements` of an `undefined` result of the value-cell lookups at lines
873, 881 and 894 yields `.error .typeError`. -/
def parseApplicationElements (elements : List Element) (cells : List Cell)
    (informationUrl scrapeDate : String) :
    Except JsError (Option DevelopmentApplication) :=
  let applicationNumberHeadingBounds := findTextBounds elements "APPLICATION NO:"
  let descriptionHeadingCell :=
    cells.find? (fun c => cellCondensedUpper c = "DESCRIPTION:".data)
  let dateLodgedHeadingCell :=
    cells.find? (fun c => cellCondensedUpper c = "DATELODGED:".data)
  let developmentAddressHeadingCell :=
    cells.find? (fun c => cellCondensedUpper c = "DEVELOPMENTADDRESS:".data)
  match applicationNumberHeadingBounds with
  | none => .ok none
  | some headingBounds =>
    let applicationNumberBounds : Rectangle :=
      ⟨qadd headingBounds.x headingBounds.width, headingBounds.y, maxValue, headingBounds.height⟩
    let applicationNumber :=
      stripLeadingColon (stripWhitespace (elementsText (elements.filter
        (fun e => decide (getPercentageOfElementInRectangle e applicationNumberBounds > 10)))))
    if applicationNumber = [] then .ok none
    else
      let descriptionStep : Except JsError (List Char) :=
        match descriptionHeadingCell with
        | none => .ok []
        | some headingCell =>
          match findAdjacentCell cells headingCell with
          | none => .error .typeError
          | some descriptionCell =>
            .ok (collapseWhitespace (jsTrim (elementsText descriptionCell.elements)))
      match descriptionStep with
      | .error e => .error e
      | .ok description =>
        let receivedDateStep : Except JsError (Option (Nat × Nat × Nat)) :=
          match dateLodgedHeadingCell with
          | none => .ok none
          | some headingCell =>
            match findAdjacentCell cells headingCell with
            | none => .error .typeError
            | some receivedDateCell =>
              .ok (parseMomentDate (stripWhitespace (elementsText receivedDateCell.elements)))
        match receivedDateStep with
        | .error e => .error e
        | .ok receivedDate =>
          match developmentAddressHeadingCell with
          | none => .ok none
          | some headingCell =>
            match findAdjacentCell cells headingCell with
            | none => .error .typeError
            | some addressCell =>
              let address := collapseWhitespace (jsTrim (elementsText addressCell.elements))
              if address = [] then .ok none
              else
                .ok (some
                  { applicationNumber := ⟨applicationNumber⟩
                    address := ⟨address⟩
                    description :=
                      if jsTrim description ≠ [] then ⟨description⟩ else "NO DESCRIPTION PROVIDED"
                    informationUrl := informationUrl
                    commentUrl := CommentUrl
                    scrapeDate := scrapeDate
                    receivedDate :=
                      match receivedDate with
                      | some d => formatDate d
                      | none => "" })

/-- One per-record section of a page: the start element and the elements and
cells of its vertical window (the objects pushed at scraper.js
lines 1180-1184). -/
structure ApplicationElementGroup where
  startElement : Element
  elements : List Element
  cells : List Cell
deriving DecidableEq

/-- Translation of the record-accumulation loop of `parsePdf`
(scraper.js lines 1190-1195): parse each section, drop sections yielding no
record, drop records whose application number was already produced, and
propagate any thrown error.  `acc` is the `developmentApplications` array
accumulated so far (across all pages of the document). -/
def processGroups (informationUrl scrapeDate : String) :
    List ApplicationElementGroup → List DevelopmentApplication →
    Except JsError (List DevelopmentApplication)
  | [], acc => .ok acc
  | group :: rest, acc =>
    match parseApplicationElements group.elements group.cells informationUrl scrapeDate with
    | .error e => .error e
    | .ok none => processGroups informationUrl scrapeDate rest acc
    | .ok (some developmentApplication) =>
      if acc.any (fun other =>
          other.applicationNumber == developmentApplication.applicationNumber) then
        processGroups informationUrl scrapeDate rest acc
      else
        processGroups informationUrl scrapeDate rest (acc ++ [developmentApplication])

/-- Decidable equality for `Except` results, so that concrete runs of the
translated functions can be checked by `decide`. -/
instance {e a : Type} [DecidableEq e] [DecidableEq a] : DecidableEq (Except e a) :=
  fun x y =>
    match x, y with
    | .ok u, .ok v =>
      if h : u = v then isTrue (by rw [h]) else isFalse (fun he => h (Except.ok.inj he))
    | .error u, .error v =>
      if h : u = v then isTrue (by rw [h]) else isFalse (fun he => h (Except.error.inj he))
    | .ok _, .error _ => isFalse (fun he => Except.noConfusion he)
    | .error _, .ok _ => isFalse (fun he => Except.noConfusion he)

/-- Failing input for C1: a section whose elements carry a valid
"APPLICATION NO:" label and number, and whose only cell is the
"DEVELOPMENT ADDRESS:" label cell, with no value cell adjacent to its right
edge. -/
def C1elements : List Element :=
  [⟨"APPLICATION NO:", 0, 0, 50, 10⟩, ⟨"123/456/789", 52, 0, 30, 10⟩,
   ⟨"DEVELOPMENT ADDRESS:", 0, 20, 60, 10⟩]

/-- Cells of the C1 failing input: the label cell alone. -/
def C1cells : List Cell :=
  [⟨0, 20, 60, 10, [⟨"DEVELOPMENT ADDRESS:", 0, 20, 60, 10⟩]⟩]

/-- A well-formed section: the C1 elements plus an address value cell
adjacent to the label cell, from which a record is successfully extracted. -/
def OkElements : List Element :=
  [⟨"APPLICATION NO:", 0, 0, 50, 10⟩, ⟨"123/456/789", 52, 0, 30, 10⟩,
   ⟨"DEVELOPMENT ADDRESS:", 0, 20, 60, 10⟩, ⟨"1 Main Street", 62, 20, 60, 10⟩]

/-- Cells of the well-formed section: label cell and its value cell. -/
def OkCells : List Cell :=
  [⟨0, 20, 60, 10, [⟨"DEVELOPMENT ADDRESS:", 0, 20, 60, 10⟩]⟩,
   ⟨60, 20, 100, 10, [⟨"1 Main Street", 62, 20, 60, 10⟩]⟩]

/-- The record extracted from the well-formed section. -/
def OkRecord : DevelopmentApplication :=
  { applicationNumber := "123/456/789"
    address := "1 Main Street"
    description := "NO DESCRIPTION PROVIDED"
    informationUrl := "url"
    commentUrl := CommentUrl
    scrapeDate := "2019-03-21"
    receivedDate := "" }

/-- The well-formed section packaged as a group (as built by the windowing
loop of `parsePdf`). -/
def OkGroup : ApplicationElementGroup :=
  ⟨⟨"APPLICATION NO:", 0, 0, 50, 10⟩, OkElements, OkCells⟩

/-- Translation of the raised copy of a start element
(scraper.js lines 1169-1174): the anchor lifted by half its height. -/
def raisedStartElement (startElement : Element) : Element :=
  { startElement with y := qsub startElement.y (qdiv startElement.height 2) }

/-- Translation of the section-window loop of `parsePdf`
(scraper.js lines 1163-1185), recursing over the sorted start elements: the
window of a start element runs from the `getRowTop` of its raised copy up to
the `getRowTop` of the next (unraised) start element, or `Number.MAX_VALUE`
for the last one; an element or cell is kept when its top edge is at or
below the window top and its bottom edge is strictly above the window end. -/
def mkGroups (elements : List Element) (cells : List Cell) :
    List Element → List ApplicationElementGroup
  | [] => []
  | s :: rest =>
    let rowTop := getRowTop elements (raisedStartElement s)
    let nextRowTop :=
      match rest with
      | [] => maxValue
      | s2 :: _ => getRowTop elements s2
    { startElement := s
      elements := elements.filter
        (fun e => decide (e.y ≥ rowTop) && decide (qadd e.y e.height < nextRowTop))
      cells := cells.filter
        (fun c => decide (c.y ≥ rowTop) && decide (qadd c.y c.height < nextRowTop)) } ::
      mkGroups elements cells rest

/-- Section grouping of a page (scraper.js lines 1161-1185):
`findStartElements` followed by the window filter. -/
def groupApplicationElements (elements : List Element) (cells : List Cell) :
    List ApplicationElementGroup :=
  mkGroups elements cells (findStartElements elements)

/-- Window top of anchor `i` (statement-side helper): `getRowTop` of the
raised anchor, as computed by the windowing loop. -/
def sectionRowTop (elements : List Element) (ses : List Element) (i : Nat) : ℚ :=
  match ses[i]? with
  | some s => getRowTop elements (raisedStartElement s)
  | none => 0

/-- Window end of anchor `i` (statement-side helper): `getRowTop` of the
next anchor, unraised, or `Number.MAX_VALUE` for the last anchor. -/
def sectionNextRowTop (elements : List Element) (ses : List Element) (i : Nat) : ℚ :=
  match ses[i + 1]? with
  | some s2 => getRowTop elements s2
  | none => maxValue

/-- First anchor of the C5 page. -/
def C5s1 : Element := ⟨"APPLICATION NO:", 0, 0, 50, 10⟩

/-- A tall element whose top edge lies inside the first anchor's window but
whose bottom edge crosses the second anchor's window top. -/
def C5e : Element := ⟨"ZZZ", 200, 90, 40, 20⟩

/-- A small element lying in the overlap of the two section windows. -/
def C5f : Element := ⟨"W", 200, 96, 10, 2⟩

/-- Second anchor of the C5 page. -/
def C5s2 : Element := ⟨"APPLICATION NO:", 0, 100, 50, 10⟩

/-- The C5 page: two anchors plus the two probe elements, in the page's
canonical sort order. -/
def C5elements : List Element := [C5s1, C5e, C5f, C5s2]

/-- Scan index of the owning cell of an element: the first cell (in the
canonical cell order) whose overlap percentage with the element exceeds the
dominance threshold of 50 used by the section-based extractor
(scraper.js line 1153). -/
def firstOwnerIdx (cells : List Cell) (element : Element) : Option Nat :=
  match cells with
  | [] => none
  | c :: rest =>
    if getPercentageOfElementInCell element c > 50 then some 0
    else (firstOwnerIdx rest element).map (fun n => n + 1)

/-- Push an element onto the element list of the cell at position `i`
(the mutation `ownerCell.elements.push(element)` of scraper.js line 1155). -/
def appendElementAt : List Cell → Nat → Element → List Cell
  | [], _, _ => []
  | c :: rest, 0, e => { c with elements := c.elements ++ [e] } :: rest
  | c :: rest, n + 1, e => c :: appendElementAt rest n e

/-- Translation of one iteration of the ownership loop
(scraper.js lines 1152-1156). -/
def assignElementToOwner (cells : List Cell) (element : Element) : List Cell :=
  match firstOwnerIdx cells element with
  | none => cells
  | some i => appendElementAt cells i element

/-- Translation of the ownership loop of `parsePdf`
(scraper.js lines 1152-1156): elements are processed in their canonical
order, each being pushed into its owning cell, if any. -/
def assignOwners (cells : List Cell) (elements : List Element) : List Cell :=
  elements.foldl assignElementToOwner cells

/-- C7 witness cell (empty, square of side 10). -/
def C7cell : Cell := ⟨0, 0, 10, 10, []⟩

/-- C7 witness element, fully inside `C7cell`. -/
def C7element : Element := ⟨"T", 0, 0, 10, 10⟩

/-- Kernel-reducible absolute value on `ℚ`, modelling `Math.abs`
(see `qabs_eq`). -/
def qabs (a : ℚ) : ℚ := if a < 0 then -a else a

/-- Classification of line-candidate rectangles into horizontal lines
(scraper.js lines 974-976): height at most `Tolerance` and width at
least 10. -/
def horizontalLinesOf (lines : List Rectangle) : List Line :=
  lines.filterMap (fun l =>
    if l.height ≤ Tolerance ∧ l.width ≥ 10 then
      some ⟨l.x, l.y, qadd l.x l.width, l.y⟩
    else none)

/-- Classification of line-candidate rectangles into vertical lines
(scraper.js lines 977-978): not horizontal, width at most `Tolerance` and
height at least 10. -/
def verticalLinesOf (lines : List Rectangle) : List Line :=
  lines.filterMap (fun l =>
    if l.height ≤ Tolerance ∧ l.width ≥ 10 then none
    else if l.width ≤ Tolerance ∧ l.height ≥ 10 then
      some ⟨l.x, l.y, l.x, qadd l.y l.height⟩
    else none)

/-- Sort of the horizontal lines by `y1` (scraper.js lines 981-982).
`Array.prototype.sort` is stable and the comparer orders by the key alone;
a stable insertion sort by `y1 ≤ y1` reproduces it. -/
def sortHorizontal (ls : List Line) : List Line :=
  List.insertionSort (fun a b => a.y1 ≤ b.y1) ls

/-- Sort of the vertical lines by `x1` (scraper.js lines 984-985). -/
def sortVertical (ls : List Line) : List Line :=
  List.insertionSort (fun a b => a.x1 ≤ b.x1) ls

/-- Squared distance between two points, as written in the proximity tests
of scraper.js lines 998-1016. -/
def dist2 (p q : Point) : ℚ :=
  qadd (qmul (qsub p.x q.x) (qsub p.x q.x)) (qmul (qsub p.y q.y) (qsub p.y q.y))

/-- Tolerance-deduplicated insertion into the point lattice (the guarded
`points.push` of scraper.js lines 1004-1016): the candidate is dropped when
an existing point lies within `Tolerance` (strict squared-distance test). -/
def addPoint (points : List Point) (candidate : Point) : List Point :=
  if points.any (fun p => decide (dist2 candidate p < qmul Tolerance Tolerance)) then points
  else points ++ [candidate]

/-- The four endpoint-proximity tests of scraper.js lines 998-1002. -/
def haveSharedPoints (horizontalLine verticalLine : Line) : Bool :=
  decide (dist2 ⟨verticalLine.x1, verticalLine.y1⟩ ⟨horizontalLine.x1, horizontalLine.y1⟩ <
    qmul Tolerance Tolerance) ||
  decide (dist2 ⟨verticalLine.x1, verticalLine.y1⟩ ⟨horizontalLine.x2, horizontalLine.y2⟩ <
    qmul Tolerance Tolerance) ||
  decide (dist2 ⟨verticalLine.x2, verticalLine.y2⟩ ⟨horizontalLine.x1, horizontalLine.y1⟩ <
    qmul Tolerance Tolerance) ||
  decide (dist2 ⟨verticalLine.x2, verticalLine.y2⟩ ⟨horizontalLine.x2, horizontalLine.y2⟩ <
    qmul Tolerance Tolerance)

/-- Lattice contribution of one `(horizontal, vertical)` pair
(scraper.js lines 996-1017): the clamped segment intersection, when any,
then — when the pair intersects or shares endpoints — both endpoints of both
lines, each insertion deduplicated within `Tolerance`. -/
def pairStep (points : List Point) (horizontalLine verticalLine : Line) : List Point :=
  let intersectionPoint := intersectLines horizontalLine verticalLine true
  let points1 :=
    match intersectionPoint with
    | some p => addPoint points p
    | none => points
  if haveSharedPoints horizontalLine verticalLine || intersectionPoint.isSome then
    addPoint (addPoint (addPoint (addPoint points1
      ⟨horizontalLine.x1, horizontalLine.y1⟩)
      ⟨horizontalLine.x2, horizontalLine.y2⟩)
      ⟨verticalLine.x1, verticalLine.y1⟩)
      ⟨verticalLine.x2, verticalLine.y2⟩
  else points1

/-- The full point lattice: the double loop of scraper.js lines 994-1019
(horizontal lines outer, vertical lines inner). -/
def latticePoints (horizontalLines verticalLines : List Line) : List Point :=
  horizontalLines.foldl
    (fun pts h => verticalLines.foldl (fun pts2 v => pairStep pts2 h v) pts)
    []

/-- Translation of the `closestRightPoint` reduce of scraper.js line 1029:
the nearest point strictly to the right at the same `y` within `Tolerance`. -/
def closestRightPoint (points : List Point) (point : Point) : Option Point :=
  points.foldl
    (fun previous current =>
      if (decide (qabs (qsub current.y point.y) < Tolerance) &&
          decide (current.x > point.x) &&
          (match previous with
           | none => true
           | some prev => decide (qsub current.x point.x < qsub prev.x point.x))) = true then
        some current
      else previous)
    none

/-- Translation of the `closestDownPoint` reduce of scraper.js line 1034:
the nearest point strictly below at the same `x` within `Tolerance`. -/
def closestDownPoint (points : List Point) (point : Point) : Option Point :=
  points.foldl
    (fun previous current =>
      if (decide (qabs (qsub current.x point.x) < Tolerance) &&
          decide (current.y > point.y) &&
          (match previous with
           | none => true
           | some prev => decide (qsub current.y point.y < qsub prev.y point.y))) = true then
        some current
      else previous)
    none

/-- Cell construction from the point lattice (scraper.js lines 1025-1040):
a point with both a right and a down neighbor spans a cell. -/
def cellsFromPoints (points : List Point) : List Cell :=
  points.foldl
    (fun cells point =>
      match closestRightPoint points point, closestDownPoint points point with
      | some rightPoint, some downPoint =>
        cells ++ [⟨point.x, point.y, qsub rightPoint.x point.x,
                   qsub downPoint.y point.y, []⟩]
      | _, _ => cells)
    []

/-- The canonical cell order (the comparer of scraper.js lines 1044 and
1142): same row within `Tolerance` compares by `x`, otherwise by `y`
(`comparer a b ≤ 0` as a relation). -/
def cellLe (a b : Cell) : Prop :=
  if qabs (qsub a.y b.y) < Tolerance then a.x ≤ b.x else a.y ≤ b.y

instance (a b : Cell) : Decidable (cellLe a b) := by unfold cellLe; infer_instance

/-- The final cell sort of `parseCells` (scraper.js lines 1044-1045). -/
def sortCells (cells : List Cell) : List Cell := List.insertionSort cellLe cells

/-- Translation of the grid-reconstruction part of `parseCells`
(scraper.js lines 966-1047), from the extracted line-candidate rectangles to
the sorted cell list: classification, lattice construction and cell
construction. -/
def parseCellsFromRects (lines : List Rectangle) : List Cell :=
  let horizontalLines := sortHorizontal (horizontalLinesOf lines)
  let verticalLines := sortVertical (verticalLinesOf lines)
  let points := latticePoints horizontalLines verticalLines
  sortCells (cellsFromPoints points)

/-- C6 line-candidate rectangles: a one-cell grid whose top rule is drawn
twice, the second copy shifted right by 1 (same `y`, so the two horizontal
candidates share the sort key). -/
def C6rects : List Rectangle :=
  [⟨0, 0, 10, 0⟩, ⟨1, 0, 10, 0⟩, ⟨0, 0, 0, 10⟩, ⟨10, 0, 0, 10⟩, ⟨0, 10, 10, 0⟩]

/-- The same candidates with the two duplicate top rules swapped. -/
def C6rectsPerm : List Rectangle :=
  [⟨1, 0, 10, 0⟩, ⟨0, 0, 10, 0⟩, ⟨0, 0, 0, 10⟩, ⟨10, 0, 0, 10⟩, ⟨0, 10, 10, 0⟩]

/-- Synthetic ruled grid for C8: `N` horizontal and `M` vertical evenly
spaced zero-thickness line-candidate rectangles with origin `(x0, y0)` and
spacings `sx` (between vertical lines) and `sy` (between horizontal lines);
each horizontal rule spans all vertical rules and conversely. -/
def gridRects (x0 y0 sx sy : ℚ) (N M : ℕ) : List Rectangle :=
  ((List.range N).map fun i => ⟨x0, y0 + i * sy, ((M - 1 : ℕ) : ℚ) * sx, 0⟩) ++
  ((List.range M).map fun j => ⟨x0 + j * sx, y0, 0, ((N - 1 : ℕ) : ℚ) * sy⟩)

/-- Horizontal grid line `i` as classified by `horizontalLinesOf`. -/
def gridH (x0 y0 sx sy : ℚ) (M : ℕ) (i : ℕ) : Line :=
  ⟨x0, y0 + i * sy, x0 + ((M - 1 : ℕ) : ℚ) * sx, y0 + i * sy⟩

/-- Vertical grid line `j` as classified by `verticalLinesOf`. -/
def gridV (x0 y0 sx sy : ℚ) (N : ℕ) (j : ℕ) : Line :=
  ⟨x0 + j * sx, y0, x0 + j * sx, y0 + ((N - 1 : ℕ) : ℚ) * sy⟩

/-- Crossing point of horizontal grid line `i` and vertical grid line `j`. -/
def gridCross (x0 y0 sx sy : ℚ) (i j : ℕ) : Point :=
  ⟨x0 + j * sx, y0 + i * sy⟩

/-- All crossings of the grid, row by row. -/
def gridCrossList (x0 y0 sx sy : ℚ) (N M : ℕ) : List Point :=
  (((List.range N).map fun i =>
    (List.range M).map fun j => gridCross x0 y0 sx sy i j)).flatten

/-- A point of the grid lattice: some crossing `(i, j)` with `i < N`,
`j < M`. -/
def isGridPoint (x0 y0 sx sy : ℚ) (N M : ℕ) (p : Point) : Prop :=
  ∃ i, i < N ∧ ∃ j, j < M ∧ p = gridCross x0 y0 sx sy i j

end Scraper

open Scraper

/-- Certificate that the `maxValue` numeral is `(2^53 - 1) * 2^971`. -/
theorem Scraper.maxValue_eq : maxValue = ((2 ^ 53 - 1) * 2 ^ 971 : ℚ) := by
  rw [maxValue, Rat.mkRat_eq_div]
  norm_num

@[simp] theorem Scraper.qadd_eq (a b : ℚ) : qadd a b = a + b := (Rat.add_def' a b).symm

@[simp] theorem Scraper.qsub_eq (a b : ℚ) : qsub a b = a - b := (Rat.sub_def' a b).symm

@[simp] theorem Scraper.qmul_eq (a b : ℚ) : qmul a b = a * b := (Rat.mul_eq_mkRat a b).symm

@[simp] theorem Scraper.qdiv_eq (a b : ℚ) : qdiv a b = a / b := (Rat.div_def' a b).symm

@[simp] theorem Scraper.qmax_eq (a b : ℚ) : qmax a b = max a b := (max_def a b).symm

@[simp] theorem Scraper.qmin_eq (a b : ℚ) : qmin a b = min a b := (min_def a b).symm

theorem Scraper.lev_self (s : List Char) : lev s s = 0 := by
  induction s with
  | nil => rfl
  | cons x xs ih => simp [lev, levGo, ih]

/-- C2 (part 1): the `union` of the source is not the smallest covering
rectangle.  At `r1 = {x:0, y:10, w:1, h:1}`, `r2 = {x:0, y:0, w:1, h:1}`
the code returns `{x:0, y:10, w:1, h:1}`, which does not cover `r2`
(its `y` is `r1.y` regardless of `r2.y`, scraper.js line 598). -/
theorem Scraper.c2_union_missing_cover :
    Scraper.union ⟨0, 10, 1, 1⟩ ⟨0, 0, 1, 1⟩ = ⟨0, 10, 1, 1⟩ ∧
    ¬ Scraper.coversRect (Scraper.union ⟨0, 10, 1, 1⟩ ⟨0, 0, 1, 1⟩) ⟨0, 0, 1, 1⟩ := by
  have h : Scraper.union ⟨0, 10, 1, 1⟩ ⟨0, 0, 1, 1⟩ = ⟨0, 10, 1, 1⟩ := by decide
  refine ⟨h, ?_⟩
  rw [h]
  intro hcov
  rcases hcov with ⟨-, hy, -, -⟩
  norm_num at hy

/-- C3: `intersectLines` does not reject all parallel line pairs.  The
determinant computed at scraper.js line 623 uses `line1.x2 - line1.x1` where
the correct coefficient formula needs `line2.x2 - line2.x1`; for the parallel
(slope-one) pair `(0,0)-(2,2)` and `(0,1)-(1,2)` it is nonzero, both line
parameters land in `[0,1]`, and the function returns the point `(1,1)` even
though the segments never meet. -/
theorem Scraper.c3_intersectLines_accepts_parallel :
    Scraper.isParallel ⟨0, 0, 2, 2⟩ ⟨0, 1, 1, 2⟩ ∧
    Scraper.intersectLines ⟨0, 0, 2, 2⟩ ⟨0, 1, 1, 2⟩ true = some ⟨1, 1⟩ := by
  constructor
  · show (2 - 0 : ℚ) * (2 - 1) = (2 - 0) * (1 - 0)
    norm_num
  · decide

/-- C9: rank cascade of the fuzzy anchor matcher.  For a candidate rendering
of the anchor label (already normalized), equality with the normalized label
gives rank 0; edit distance 1 gives rank 1; edit distance 2 gives rank 2; at
edit distance 3 or more no match is produced. -/
theorem Scraper.c9_matchRank_cascade (s t : List Char) :
    (s = t → Scraper.matchRank s t = some 0) ∧
    (Scraper.lev s t = 1 → Scraper.matchRank s t = some 1) ∧
    (Scraper.lev s t = 2 → Scraper.matchRank s t = some 2) ∧
    (3 ≤ Scraper.lev s t → Scraper.matchRank s t = none) := by
  refine ⟨fun h => by simp [Scraper.matchRank, h], fun h => ?_, fun h => ?_, fun h => ?_⟩
  · have hne : s ≠ t := fun he => by simp [he, Scraper.lev_self] at h
    simp [Scraper.matchRank, hne, h]
  · have hne : s ≠ t := fun he => by simp [he, Scraper.lev_self] at h
    simp [Scraper.matchRank, hne, h]
  · have hne : s ≠ t := fun he => by
      rw [he, Scraper.lev_self] at h; omega
    have h1 : ¬ Scraper.lev s t ≤ 1 := by omega
    have h2 : ¬ Scraper.lev s t ≤ 2 := by omega
    simp [Scraper.matchRank, hne, h1, h2]

/-- C9 witness: the spec's own examples for the label "APPLICATION NO:"
(normalized "applicationno:"): the exact rendering has rank 0, one stray
character ("applicationno::") rank 1, two edits rank 2, three edits no match. -/
theorem Scraper.c9_matchRank_cascade_witness :
    Scraper.matchRank "applicationno:".data "applicationno:".data = some 0 ∧
    Scraper.matchRank "applicationno::".data "applicationno:".data = some 1 ∧
    Scraper.matchRank "applicationnoxy".data "applicationno:".data = some 2 ∧
    Scraper.matchRank "applicationnxyz".data "applicationno:".data = none :=
  ⟨(Scraper.c9_matchRank_cascade _ _).1 rfl,
   (Scraper.c9_matchRank_cascade _ _).2.1 (by decide),
   (Scraper.c9_matchRank_cascade _ _).2.2.1 (by decide),
   (Scraper.c9_matchRank_cascade _ _).2.2.2 (by decide)⟩

set_option maxRecDepth 2000 in
/-- C1: the extraction of one section can abort the page.  On a section
whose "DEVELOPMENT ADDRESS:" label cell has no value cell adjacent to its
right edge, `parseApplicationElements` does not return "no record": the
`cells.find` of scraper.js line 893 yields `undefined` and line 894
dereferences it, throwing a `TypeError` that propagates out of the
per-section loop of `parsePdf` (lines 1190-1195 have no handler). -/
theorem Scraper.c1_missing_value_cell_throws :
    parseApplicationElements C1elements C1cells "url" "2019-03-21" =
      .error .typeError := by decide

set_option maxRecDepth 2000 in
/-- Sanity run for the well-formed section: the record is extracted, with
the sentinel description and an empty received date. -/
theorem Scraper.okSection_parses :
    parseApplicationElements OkElements OkCells "url" "2019-03-21" =
      .ok (some OkRecord) := by decide


/-- Success-path facts of `parseApplicationElements`: an extracted record
never carries a blank address, and its description is either nonblank or the
sentinel. -/
theorem Scraper.parseApplicationElements_ok_some
    {es : List Element} {cs : List Cell} {url today : String}
    {r : DevelopmentApplication}
    (h : parseApplicationElements es cs url today = .ok (some r)) :
    r.address ≠ "" ∧
    (r.description = "NO DESCRIPTION PROVIDED" ∨ jsTrim r.description.data ≠ []) := by
  simp only [parseApplicationElements] at h
  split at h
  · exact absurd (Except.ok.inj h) (by simp)
  · split at h
    · exact absurd (Except.ok.inj h) (by simp)
    · split at h
      · exact absurd h (by simp)
      · split at h
        · exact absurd h (by simp)
        · split at h
          · exact absurd (Except.ok.inj h) (by simp)
          · split at h
            · exact absurd h (by simp)
            · split at h
              · exact absurd (Except.ok.inj h) (by simp)
              · rename_i haddr
                have hr := Option.some.inj (Except.ok.inj h)
                subst hr
                refine ⟨?_, ?_⟩
                · dsimp only
                  intro he
                  exact haddr (by simpa using congrArg String.data he)
                · dsimp only
                  split
                  · rename_i hcond
                    exact Or.inr (by simpa using hcond)
                  · exact Or.inl rfl

theorem Scraper.processGroups_mem {url today : String}
    {groups : List ApplicationElementGroup}
    {acc l : List DevelopmentApplication}
    (h : processGroups url today groups acc = .ok l) :
    ∀ r ∈ l, r ∈ acc ∨ ∃ g ∈ groups,
      parseApplicationElements g.elements g.cells url today = .ok (some r) := by
  induction groups generalizing acc with
  | nil =>
    intro r hr
    exact Or.inl (by simpa [processGroups, Except.ok.inj h] using hr)
  | cons g rest ih =>
    intro r hr
    rw [processGroups] at h
    rcases hpe : parseApplicationElements g.elements g.cells url today with e | od
    · rw [hpe] at h; exact absurd h (by simp)
    · rw [hpe] at h
      cases od with
      | none =>
        rcases ih h r hr with hacc | ⟨g', hg', hp⟩
        · exact Or.inl hacc
        · exact Or.inr ⟨g', List.mem_cons_of_mem _ hg', hp⟩
      | some d =>
        have h' :
            (if (acc.any fun other =>
                  other.applicationNumber == d.applicationNumber) = true then
              processGroups url today rest acc
            else processGroups url today rest (acc ++ [d])) = Except.ok l := h
        split at h'
        · rcases ih h' r hr with hacc | ⟨g', hg', hp⟩
          · exact Or.inl hacc
          · exact Or.inr ⟨g', List.mem_cons_of_mem _ hg', hp⟩
        · rcases ih h' r hr with hacc | ⟨g', hg', hp⟩
          · rcases List.mem_append.1 hacc with h1 | h2
            · exact Or.inl h1
            · have : r = d := by simpa using h2
              subst this
              exact Or.inr ⟨g, List.mem_cons_self .., hpe⟩
          · exact Or.inr ⟨g', List.mem_cons_of_mem _ hg', hp⟩

theorem Scraper.processGroups_nodup {url today : String}
    {groups : List ApplicationElementGroup}
    {acc l : List DevelopmentApplication}
    (hacc : (acc.map (fun r => r.applicationNumber)).Nodup)
    (h : processGroups url today groups acc = .ok l) :
    (l.map (fun r => r.applicationNumber)).Nodup := by
  induction groups generalizing acc with
  | nil =>
    rw [processGroups] at h
    rw [← Except.ok.inj h]
    exact hacc
  | cons g rest ih =>
    rw [processGroups] at h
    rcases hpe : parseApplicationElements g.elements g.cells url today with e | od
    · rw [hpe] at h; exact absurd h (by simp)
    · rw [hpe] at h
      cases od with
      | none => exact ih hacc h
      | some d =>
        have h' :
            (if (acc.any fun other =>
                  other.applicationNumber == d.applicationNumber) = true then
              processGroups url today rest acc
            else processGroups url today rest (acc ++ [d])) = Except.ok l := h
        split at h'
        · exact ih hacc h'
        · rename_i hdup
          refine ih ?_ h'
          rw [List.map_append]
          refine List.Nodup.append hacc (by simp) ?_
          intro a ha hb
          simp only [List.map_cons, List.map_nil, List.mem_singleton] at hb
          subst hb
          rcases List.mem_map.1 ha with ⟨o, ho, hoa⟩
          exact hdup (by
            refine List.any_eq_true.2 ⟨o, ho, ?_⟩
            simpa using hoa)


/-- C4: in the extracted output of a document, no record has a blank
address, and a record whose description text was blank carries the sentinel
"NO DESCRIPTION PROVIDED" (equivalently: the stored description never trims
to the empty string unless it is the sentinel). -/
theorem Scraper.c4_no_blank_address_sentinel_description
    (url today : String) (groups : List ApplicationElementGroup)
    (l : List DevelopmentApplication)
    (h : processGroups url today groups [] = .ok l) :
    ∀ r ∈ l, r.address ≠ "" ∧
      (r.description = "NO DESCRIPTION PROVIDED" ∨ jsTrim r.description.data ≠ []) := by
  intro r hr
  rcases Scraper.processGroups_mem h r hr with hacc | ⟨g, -, hp⟩
  · simp at hacc
  · exact Scraper.parseApplicationElements_ok_some hp

set_option maxRecDepth 2000 in
/-- C4 witness: the well-formed section produces `[OkRecord]`, whose address
is nonblank and whose description is the sentinel. -/
theorem Scraper.c4_no_blank_address_sentinel_description_witness :
    OkRecord.address ≠ "" ∧
    (OkRecord.description = "NO DESCRIPTION PROVIDED" ∨
      jsTrim OkRecord.description.data ≠ []) :=
  Scraper.c4_no_blank_address_sentinel_description "url" "2019-03-21"
    [OkGroup] [OkRecord] (by decide) OkRecord (List.mem_singleton.2 rfl)

/-- C10: the record list returned by the per-document accumulation loop of
`parsePdf` has pairwise distinct application numbers — a section whose
extracted number equals that of an earlier record of the same document is
silently dropped. -/
theorem Scraper.c10_distinct_application_numbers
    (url today : String) (groups : List ApplicationElementGroup)
    (l : List DevelopmentApplication)
    (h : processGroups url today groups [] = .ok l) :
    (l.map (fun r => r.applicationNumber)).Nodup :=
  Scraper.processGroups_nodup (by simp) h

set_option maxRecDepth 2000 in
/-- C10 witness: two copies of the same well-formed section yield a single
record; the duplicate is dropped and the application numbers are distinct. -/
theorem Scraper.c10_distinct_application_numbers_witness :
    (([OkRecord] : List DevelopmentApplication).map
      (fun r => r.applicationNumber)).Nodup :=
  Scraper.c10_distinct_application_numbers "url" "2019-03-21"
    [OkGroup, OkGroup] [OkRecord] (by decide)

set_option maxRecDepth 2000 in
/-- C5 counterexample: the section windows of a page neither contain every
element whose `y` falls in them nor are disjoint.  On the C5 page the two
anchors are found, the first window is `[-5, 100)` (raised row top `-5`,
next unraised row top `100`) and the second starts at `95`; the tall element
`C5e` has `y = 90` inside the first window (under both the unraised bound
`100` and the raised bound `95`) yet belongs to no section, because its
bottom edge `110` crosses the window end; and `C5f` (`y = 96`) belongs to
both sections. -/
theorem Scraper.c5_sections_not_partition :
    findStartElements C5elements = [C5s1, C5s2] ∧
    groupApplicationElements C5elements [] =
      [⟨C5s1, [C5s1, C5f], []⟩, ⟨C5s2, [C5f, C5s2], []⟩] ∧
    getRowTop C5elements (raisedStartElement C5s1) = -5 ∧
    getRowTop C5elements C5s2 = 100 ∧
    getRowTop C5elements (raisedStartElement C5s2) = 95 ∧
    ((-5 : ℚ) ≤ C5e.y ∧ C5e.y < 95 ∧ C5e.y < 100) ∧
    (C5e ∉ [C5s1, C5f] ∧ C5e ∉ [C5f, C5s2]) ∧
    (C5f ∈ [C5s1, C5f] ∧ C5f ∈ [C5f, C5s2]) := by decide

theorem Scraper.mkGroups_get_elements (elements : List Element) (cells : List Cell) :
    ∀ (ses : List Element) (i : Nat) (hi : i < (mkGroups elements cells ses).length),
      ((mkGroups elements cells ses).get ⟨i, hi⟩).elements =
        elements.filter (fun e =>
          decide (e.y ≥ sectionRowTop elements ses i) &&
          decide (qadd e.y e.height < sectionNextRowTop elements ses i)) := by
  intro ses
  induction ses with
  | nil => intro i hi; simp [mkGroups] at hi
  | cons s rest ih =>
    intro i hi
    cases i with
    | zero =>
      cases rest <;> simp [mkGroups, sectionRowTop, sectionNextRowTop]
    | succ n =>
      simpa [mkGroups, sectionRowTop, sectionNextRowTop] using
        ih n (by simpa [mkGroups] using hi)

/-- C5 amended: an element belongs to section `i` exactly when it is on the
page, its top edge `y` is at or below the `getRowTop` of the raised anchor
`i`, and its bottom edge `y + height` is strictly above the `getRowTop` of
the (unraised) anchor `i+1` — `Number.MAX_VALUE` for the last anchor.
Membership thus depends on both edges, not on `y` alone, and because
consecutive bounds are computed from the raised and the unraised anchor
respectively, the windows may overlap or leave gaps, so an element can fall
in two sections or in none. -/
theorem Scraper.c5_amended_membership (elements : List Element) (cells : List Cell)
    (i : Nat) (hi : i < (groupApplicationElements elements cells).length) (e : Element) :
    e ∈ ((groupApplicationElements elements cells).get ⟨i, hi⟩).elements ↔
      (e ∈ elements ∧
       sectionRowTop elements (findStartElements elements) i ≤ e.y ∧
       qadd e.y e.height < sectionNextRowTop elements (findStartElements elements) i) := by
  have hg := Scraper.mkGroups_get_elements elements cells (findStartElements elements) i hi
  show e ∈ ((mkGroups elements cells (findStartElements elements)).get ⟨i, hi⟩).elements ↔ _
  rw [hg]
  simp [List.mem_filter, ge_iff_le, and_assoc]

set_option maxRecDepth 2000 in
/-- C5 amended witness: applying the membership characterization at the C5
page places `C5f` in section 0. -/
theorem Scraper.c5_amended_membership_witness :
    C5f ∈ ((groupApplicationElements C5elements []).get ⟨0, by decide⟩).elements :=
  (Scraper.c5_amended_membership C5elements [] 0 (by decide) C5f).2
    ⟨by decide, by decide, by decide⟩

/-- C7 helper: pushing an element into a cell's element list leaves every
cell's geometry, and hence the owner scan, unchanged. -/
theorem Scraper.firstOwnerIdx_appendElementAt (cells : List Cell) (j : Nat)
    (e x : Element) :
    firstOwnerIdx (appendElementAt cells j e) x = firstOwnerIdx cells x := by
  induction cells generalizing j with
  | nil => simp [appendElementAt]
  | cons c rest ih =>
    cases j with
    | zero =>
      simp only [appendElementAt, firstOwnerIdx]
      rfl
    | succ n =>
      simp only [appendElementAt, firstOwnerIdx, ih n]

theorem Scraper.appendElementAt_getElem? (cells : List Cell) (j : Nat) (e : Element)
    (i : Nat) :
    (appendElementAt cells j e)[i]? =
      if i = j then (cells[i]?).map (fun c => { c with elements := c.elements ++ [e] })
      else cells[i]? := by
  induction cells generalizing i j with
  | nil => simp [appendElementAt]
  | cons c rest ih =>
    cases j with
    | zero =>
      cases i with
      | zero => simp [appendElementAt]
      | succ m => simp [appendElementAt]
    | succ n =>
      cases i with
      | zero => simp [appendElementAt]
      | succ m => simp [appendElementAt, ih n m]

theorem Scraper.assignOwners_getElem? (elements : List Element) :
    ∀ (cells : List Cell) (i : Nat),
      (assignOwners cells elements)[i]? =
        (cells[i]?).map (fun c =>
          { c with elements :=
              c.elements ++ elements.filter (fun x => firstOwnerIdx cells x == some i) }) := by
  induction elements with
  | nil =>
    intro cells i
    cases h : cells[i]? <;> simp [assignOwners, h]
  | cons e es ih =>
    intro cells i
    have hstep : assignOwners cells (e :: es) = assignOwners (assignElementToOwner cells e) es := rfl
    rw [hstep, ih]
    rcases hfo : firstOwnerIdx cells e with _ | j
    · have hcells : assignElementToOwner cells e = cells := by
        simp [assignElementToOwner, hfo]
      rw [hcells]
      have hfilter :
          (e :: es).filter (fun x => firstOwnerIdx cells x == some i) =
            es.filter (fun x => firstOwnerIdx cells x == some i) := by
        simp [List.filter_cons, hfo]
      rw [hfilter]
    · have hcells : assignElementToOwner cells e = appendElementAt cells j e := by
        simp [assignElementToOwner, hfo]
      rw [hcells]
      have hpred : ∀ x, (firstOwnerIdx (appendElementAt cells j e) x == some i) =
          (firstOwnerIdx cells x == some i) := by
        intro x
        rw [Scraper.firstOwnerIdx_appendElementAt]
      rw [List.filter_congr (fun x _ => hpred x)]
      rw [Scraper.appendElementAt_getElem?]
      by_cases hij : i = j
      · subst hij
        have hfilter :
            (e :: es).filter (fun x => firstOwnerIdx cells x == some i) =
              e :: es.filter (fun x => firstOwnerIdx cells x == some i) := by
          simp [List.filter_cons, hfo]
        rw [hfilter, if_pos rfl]
        cases h : cells[i]? <;> simp [h]
      · have hfilter :
            (e :: es).filter (fun x => firstOwnerIdx cells x == some i) =
              es.filter (fun x => firstOwnerIdx cells x == some i) := by
          simp [List.filter_cons, hfo, Ne.symm hij]
        rw [hfilter, if_neg hij]

/-- C7: each element is owned by at most one cell.  Starting from cells with
empty element lists, cell `i` of the assignment result holds exactly the
elements whose first matching cell in scan order (overlap percentage
strictly above the 50 dominance threshold) is cell `i`; consequently no
element sits in two cells, and an element matching no cell sits in no cell
and the page's element list — which the section segmenter consumes — is
unchanged by the assignment. -/
theorem Scraper.c7_element_ownership (cells : List Cell) (elements : List Element)
    (hempty : ∀ c ∈ cells, c.elements = []) :
    (∀ i : Nat, (assignOwners cells elements)[i]? =
      (cells[i]?).map (fun c =>
        { c with elements :=
            elements.filter (fun x => firstOwnerIdx cells x == some i) })) ∧
    (∀ (e : Element) (i j : Nat) (ci cj : Cell),
      (assignOwners cells elements)[i]? = some ci → e ∈ ci.elements →
      (assignOwners cells elements)[j]? = some cj → e ∈ cj.elements → i = j) ∧
    (∀ e : Element, firstOwnerIdx cells e = none →
      ∀ c ∈ assignOwners cells elements, e ∉ c.elements) := by
  have hchar : ∀ i : Nat, (assignOwners cells elements)[i]? =
      (cells[i]?).map (fun c =>
        { c with elements :=
            elements.filter (fun x => firstOwnerIdx cells x == some i) }) := by
    intro i
    rw [Scraper.assignOwners_getElem? elements cells i]
    cases h : cells[i]? with
    | none => rfl
    | some c =>
      have hc : c.elements = [] := hempty c (List.getElem?_mem h)
      simp [hc]
  refine ⟨hchar, ?_, ?_⟩
  · intro e i j ci cj hi hmi hj hmj
    rw [hchar i] at hi
    rw [hchar j] at hj
    rcases hci : cells[i]? with _ | c
    · rw [hci] at hi; exact absurd hi (by simp)
    · rw [hci] at hi
      simp only [Option.map_some'] at hi
      rcases hcj : cells[j]? with _ | d
      · rw [hcj] at hj; exact absurd hj (by simp)
      · rw [hcj] at hj
        simp only [Option.map_some'] at hj
        rw [← Option.some.inj hi] at hmi
        rw [← Option.some.inj hj] at hmj
        simp only [List.mem_filter, beq_iff_eq] at hmi hmj
        have := hmi.2.symm.trans hmj.2
        exact Option.some.inj this
  · intro e hnone c hc hmem
    rcases List.mem_iff_getElem?.1 hc with ⟨i, hi⟩
    rw [hchar i] at hi
    rcases hci : cells[i]? with _ | d
    · rw [hci] at hi; exact absurd hi (by simp)
    · rw [hci] at hi
      simp only [Option.map_some'] at hi
      rw [← Option.some.inj hi] at hmem
      simp only [List.mem_filter, beq_iff_eq] at hmem
      rw [hnone] at hmem
      exact Option.noConfusion hmem.2

/-- C7 witness: two identical overlapping cells; the element is assigned to
the first only. -/
theorem Scraper.c7_element_ownership_witness :
    (assignOwners [C7cell, C7cell] [C7element])[0]? =
      some ⟨0, 0, 10, 10, [C7element]⟩ ∧
    (assignOwners [C7cell, C7cell] [C7element])[1]? = some C7cell := by
  have h := Scraper.c7_element_ownership [C7cell, C7cell] [C7element] (by decide)
  constructor
  · rw [h.1 0]; decide
  · rw [h.1 1]; decide

/-- C6 counterexample: grid reconstruction is not order-independent.  The
one-cell grid `C6rects` has two horizontal top rules with equal `y` sort
key; the stable sort keeps their input order, the tolerance deduplication of
the point lattice keeps whichever endpoint representative arrives first, and
the two input orders therefore produce different (already canonically
sorted) cell sets: `{(0,0,10,10)}` versus `{(1,0,10,10)}`. -/
theorem Scraper.c6_order_dependent :
    C6rectsPerm.Perm C6rects ∧
    parseCellsFromRects C6rects = [⟨0, 0, 10, 10, []⟩] ∧
    parseCellsFromRects C6rectsPerm = [⟨1, 0, 10, 10, []⟩] ∧
    parseCellsFromRects C6rects ≠ parseCellsFromRects C6rectsPerm := by decide

/-- Helper: a stable sort by a rational key sends any two permutations of
each other with pairwise-distinct keys to the same list. -/
theorem Scraper.insertionSort_key_eq {α : Type} (key : α → ℚ) (l1 l2 : List α)
    (hperm : l1.Perm l2) (hnd : (l1.map key).Nodup) :
    List.insertionSort (fun a b => key a ≤ key b) l1 =
      List.insertionSort (fun a b => key a ≤ key b) l2 := by
  haveI : IsTotal α (fun a b => key a ≤ key b) := ⟨fun a b => le_total (key a) (key b)⟩
  haveI : IsTrans α (fun a b => key a ≤ key b) := ⟨fun a b c => le_trans⟩
  haveI : IsAntisymm α (fun a b => key a < key b) :=
    ⟨fun a b hab hba => absurd (lt_trans hab hba) (lt_irrefl _)⟩
  have hp1 := List.perm_insertionSort (fun a b => key a ≤ key b) l1
  have hp2 := List.perm_insertionSort (fun a b => key a ≤ key b) l2
  have hs1 := List.sorted_insertionSort (fun a b => key a ≤ key b) l1
  have hs2 := List.sorted_insertionSort (fun a b => key a ≤ key b) l2
  have hnd2 : (l2.map key).Nodup := ((hperm.map key).nodup_iff).1 hnd
  have hkey1 : (List.insertionSort (fun a b => key a ≤ key b) l1).Pairwise
      (fun a b => key a ≠ key b) := by
    have := ((hp1.map key).nodup_iff).2 hnd
    exact List.pairwise_map.1 this
  have hkey2 : (List.insertionSort (fun a b => key a ≤ key b) l2).Pairwise
      (fun a b => key a ≠ key b) := by
    have := ((hp2.map key).nodup_iff).2 hnd2
    exact List.pairwise_map.1 this
  have hstrict1 : (List.insertionSort (fun a b => key a ≤ key b) l1).Sorted
      (fun a b => key a < key b) :=
    (hs1.and hkey1).imp (fun h => lt_of_le_of_ne h.1 h.2)
  have hstrict2 : (List.insertionSort (fun a b => key a ≤ key b) l2).Sorted
      (fun a b => key a < key b) :=
    (hs2.and hkey2).imp (fun h => lt_of_le_of_ne h.1 h.2)
  exact List.eq_of_perm_of_sorted ((hp1.trans hperm).trans hp2.symm) hstrict1 hstrict2

/-- C6 amended: grid reconstruction is order-independent provided no two
horizontal line-candidates share the same `y` and no two vertical ones share
the same `x` — then permuting the input order of the line-candidate
rectangles yields the identical cell list.  Without that proviso the
equal-key sort ties and the lattice deduplication make the result depend on
input order. -/
theorem Scraper.c6_amended_perm_invariant (lines1 lines2 : List Rectangle)
    (hperm : lines1.Perm lines2)
    (hh : ((horizontalLinesOf lines1).map (fun l => l.y1)).Nodup)
    (hv : ((verticalLinesOf lines1).map (fun l => l.x1)).Nodup) :
    parseCellsFromRects lines1 = parseCellsFromRects lines2 := by
  have hph : (horizontalLinesOf lines1).Perm (horizontalLinesOf lines2) :=
    hperm.filterMap _
  have hpv : (verticalLinesOf lines1).Perm (verticalLinesOf lines2) :=
    hperm.filterMap _
  have hsh : sortHorizontal (horizontalLinesOf lines1) =
      sortHorizontal (horizontalLinesOf lines2) := by
    unfold sortHorizontal
    exact Scraper.insertionSort_key_eq (fun l => l.y1) _ _ hph hh
  have hsv : sortVertical (verticalLinesOf lines1) =
      sortVertical (verticalLinesOf lines2) := by
    unfold sortVertical
    exact Scraper.insertionSort_key_eq (fun l => l.x1) _ _ hpv hv
  unfold parseCellsFromRects
  rw [hsh, hsv]

set_option maxRecDepth 2000 in
/-- C6 amended witness: a one-cell grid with distinct sort keys gives the
same cells after swapping two rules. -/
theorem Scraper.c6_amended_perm_invariant_witness :
    parseCellsFromRects [⟨0, 0, 10, 0⟩, ⟨0, 10, 10, 0⟩, ⟨0, 0, 0, 10⟩, ⟨10, 0, 0, 10⟩] =
      parseCellsFromRects [⟨0, 10, 10, 0⟩, ⟨0, 0, 10, 0⟩, ⟨0, 0, 0, 10⟩, ⟨10, 0, 0, 10⟩] :=
  Scraper.c6_amended_perm_invariant _ _ (by decide) (by decide) (by decide)

theorem Scraper.filterMap_map_eq_map {α β γ : Type} (f : β → Option γ) (g : α → β)
    (h : α → γ) (l : List α) (H : ∀ a ∈ l, f (g a) = some (h a)) :
    (l.map g).filterMap f = l.map h := by
  induction l with
  | nil => rfl
  | cons a t ih =>
    rw [List.map_cons, List.filterMap_cons, H a (List.mem_cons_self ..), List.map_cons,
      ih (fun b hb => H b (List.mem_cons_of_mem _ hb))]

theorem Scraper.filterMap_map_eq_nil {α β γ : Type} (f : β → Option γ) (g : α → β)
    (l : List α) (H : ∀ a ∈ l, f (g a) = none) :
    (l.map g).filterMap f = [] := by
  induction l with
  | nil => rfl
  | cons a t ih =>
    rw [List.map_cons, List.filterMap_cons, H a (List.mem_cons_self ..),
      ih (fun b hb => H b (List.mem_cons_of_mem _ hb))]

theorem Scraper.grid_classify (x0 y0 sx sy : ℚ) (N M : ℕ)
    (hw : 10 ≤ ((M - 1 : ℕ) : ℚ) * sx) (hh : 10 ≤ ((N - 1 : ℕ) : ℚ) * sy) :
    horizontalLinesOf (gridRects x0 y0 sx sy N M) =
      (List.range N).map (gridH x0 y0 sx sy M) ∧
    verticalLinesOf (gridRects x0 y0 sx sy N M) =
      (List.range M).map (gridV x0 y0 sx sy N) := by
  constructor
  · unfold horizontalLinesOf gridRects
    rw [List.filterMap_append]
    rw [Scraper.filterMap_map_eq_map _ _ (gridH x0 y0 sx sy M) _ (fun i _ => by
      show (if (0 : ℚ) ≤ Tolerance ∧ ((M - 1 : ℕ) : ℚ) * sx ≥ 10 then
          some (⟨x0, y0 + i * sy, qadd x0 (((M - 1 : ℕ) : ℚ) * sx), y0 + i * sy⟩ : Line)
        else none) = some (gridH x0 y0 sx sy M i)
      rw [if_pos ⟨by norm_num [Tolerance], hw⟩]
      simp [gridH])]
    rw [Scraper.filterMap_map_eq_nil _ _ _ (fun j _ => by
      show (if ((N - 1 : ℕ) : ℚ) * sy ≤ Tolerance ∧ (0 : ℚ) ≥ 10 then
          some (⟨x0 + j * sx, y0, qadd (x0 + j * sx) 0, y0⟩ : Line)
        else none) = none
      rw [if_neg (fun hc => absurd hc.2 (by norm_num))])]
    rw [List.append_nil]
  · unfold verticalLinesOf gridRects
    rw [List.filterMap_append]
    rw [Scraper.filterMap_map_eq_nil _ _ _ (fun i _ => by
      show (if (0 : ℚ) ≤ Tolerance ∧ ((M - 1 : ℕ) : ℚ) * sx ≥ 10 then none
        else if ((M - 1 : ℕ) : ℚ) * sx ≤ Tolerance ∧ (0 : ℚ) ≥ 10 then
          some (⟨x0, y0 + i * sy, x0, qadd (y0 + i * sy) (0 : ℚ)⟩ : Line)
        else none) = none
      rw [if_pos ⟨by norm_num [Tolerance], hw⟩])]
    rw [Scraper.filterMap_map_eq_map _ _ (gridV x0 y0 sx sy N) _ (fun j _ => by
      show (if ((N - 1 : ℕ) : ℚ) * sy ≤ Tolerance ∧ (0 : ℚ) ≥ 10 then none
        else if (0 : ℚ) ≤ Tolerance ∧ ((N - 1 : ℕ) : ℚ) * sy ≥ 10 then
          some (⟨x0 + j * sx, y0, x0 + j * sx, qadd y0 (((N - 1 : ℕ) : ℚ) * sy)⟩ : Line)
        else none) = some (gridV x0 y0 sx sy N j)
      rw [if_neg (fun hc => absurd hc.2 (by norm_num))]
      rw [if_pos ⟨by norm_num [Tolerance], hh⟩]
      simp [gridV])]
    rw [List.nil_append]

theorem Scraper.grid_sortH (x0 y0 sx sy : ℚ) (N M : ℕ) (hsy : 0 ≤ sy) :
    sortHorizontal ((List.range N).map (gridH x0 y0 sx sy M)) =
      (List.range N).map (gridH x0 y0 sx sy M) := by
  apply List.Sorted.insertionSort_eq
  apply List.pairwise_map.2
  refine List.Pairwise.imp ?_ (List.pairwise_lt_range _)
  intro i j hij
  show y0 + (i : ℚ) * sy ≤ y0 + (j : ℚ) * sy
  have : (i : ℚ) ≤ (j : ℚ) := Nat.cast_le.2 (le_of_lt hij)
  nlinarith

theorem Scraper.grid_sortV (x0 y0 sx sy : ℚ) (N M : ℕ) (hsx : 0 ≤ sx) :
    sortVertical ((List.range M).map (gridV x0 y0 sx sy N)) =
      (List.range M).map (gridV x0 y0 sx sy N) := by
  apply List.Sorted.insertionSort_eq
  apply List.pairwise_map.2
  refine List.Pairwise.imp ?_ (List.pairwise_lt_range _)
  intro i j hij
  show x0 + (i : ℚ) * sx ≤ x0 + (j : ℚ) * sx
  have : (i : ℚ) ≤ (j : ℚ) := Nat.cast_le.2 (le_of_lt hij)
  nlinarith

theorem Scraper.intersectLines_hv (hx1 hy hx2 vx vy1 vy2 : ℚ)
    (hxlt : hx1 < hx2) (vylt : vy1 < vy2)
    (hvx1 : hx1 ≤ vx) (hvx2 : vx ≤ hx2) (hhy1 : vy1 ≤ hy) (hhy2 : hy ≤ vy2) :
    intersectLines ⟨hx1, hy, hx2, hy⟩ ⟨vx, vy1, vx, vy2⟩ true = some ⟨vx, hy⟩ := by
  unfold intersectLines
  simp only [qadd_eq, qsub_eq, qmul_eq, qdiv_eq]
  have hx : (0 : ℚ) < hx2 - hx1 := by linarith
  have hv : (0 : ℚ) < vy2 - vy1 := by linarith
  have hden0 : (vy2 - vy1) * (hx2 - hx1) - (hx2 - hx1) * (hy - hy) =
      (vy2 - vy1) * (hx2 - hx1) := by ring
  rw [hden0]
  have hnum1 : (vx - vx) * (hy - vy1) - (vy2 - vy1) * (hx1 - vx) =
      (vy2 - vy1) * (vx - hx1) := by ring
  rw [hnum1]
  have hnum2 : (hx2 - hx1) * (hy - vy1) - (hy - hy) * (hx1 - vx) =
      (hx2 - hx1) * (hy - vy1) := by ring
  rw [hnum2]
  have hd1 : (vy2 - vy1) * (vx - hx1) / ((vy2 - vy1) * (hx2 - hx1)) =
      (vx - hx1) / (hx2 - hx1) := mul_div_mul_left _ _ (ne_of_gt hv)
  rw [hd1]
  have hd2 : (hx2 - hx1) * (hy - vy1) / ((vy2 - vy1) * (hx2 - hx1)) =
      (hy - vy1) / (vy2 - vy1) := by
    rw [mul_comm (vy2 - vy1) (hx2 - hx1)]
    exact mul_div_mul_left _ _ (ne_of_gt hx)
  rw [hd2]
  rw [if_neg (fun hdeg => hdeg.elim (fun h1 => absurd h1.1 (by intro he; linarith))
    (fun h2 => absurd h2.2 (by intro he; linarith)))]
  rw [if_neg (ne_of_gt (mul_pos hv hx))]
  have hc1 : (0 : ℚ) ≤ (vx - hx1) / (hx2 - hx1) := div_nonneg (by linarith) (le_of_lt hx)
  have hc2 : (vx - hx1) / (hx2 - hx1) ≤ 1 := (div_le_one hx).2 (by linarith)
  have hc3 : (0 : ℚ) ≤ (hy - vy1) / (vy2 - vy1) := div_nonneg (by linarith) (le_of_lt hv)
  have hc4 : (hy - vy1) / (vy2 - vy1) ≤ 1 := (div_le_one hv).2 (by linarith)
  rw [if_neg (fun hclamp => by
    rcases hclamp.2 with h | h | h | h <;> linarith)]
  congr 1
  rw [Point.mk.injEq]
  constructor
  · rw [div_mul_cancel₀ _ (ne_of_gt hx)]
    ring
  · ring

theorem Scraper.grid_intersect (x0 y0 sx sy : ℚ) {N M : ℕ} (i j : ℕ)
    (hN : 2 ≤ N) (hM : 2 ≤ M) (hiN : i < N) (hjM : j < M)
    (hsx : 0 < sx) (hsy : 0 < sy) :
    intersectLines (gridH x0 y0 sx sy M i) (gridV x0 y0 sx sy N j) true =
      some (gridCross x0 y0 sx sy i j) := by
  have hM1 : (1 : ℚ) ≤ ((M - 1 : ℕ) : ℚ) := by exact_mod_cast (by omega : 1 ≤ M - 1)
  have hN1 : (1 : ℚ) ≤ ((N - 1 : ℕ) : ℚ) := by exact_mod_cast (by omega : 1 ≤ N - 1)
  have hj0 : (0 : ℚ) ≤ (j : ℚ) := Nat.cast_nonneg j
  have hi0 : (0 : ℚ) ≤ (i : ℚ) := Nat.cast_nonneg i
  have hjle : (j : ℚ) ≤ ((M - 1 : ℕ) : ℚ) := Nat.cast_le.2 (by omega)
  have hile : (i : ℚ) ≤ ((N - 1 : ℕ) : ℚ) := Nat.cast_le.2 (by omega)
  show intersectLines ⟨x0, y0 + i * sy, x0 + ((M - 1 : ℕ) : ℚ) * sx, y0 + i * sy⟩
    ⟨x0 + j * sx, y0, x0 + j * sx, y0 + ((N - 1 : ℕ) : ℚ) * sy⟩ true =
    some ⟨x0 + j * sx, y0 + i * sy⟩
  exact Scraper.intersectLines_hv _ _ _ _ _ _
    (by nlinarith) (by nlinarith) (by nlinarith) (by nlinarith) (by nlinarith) (by nlinarith)

theorem Scraper.one_le_cast_sub_sq {a b : ℕ} (h : a ≠ b) :
    (1 : ℚ) ≤ ((a : ℚ) - (b : ℚ)) ^ 2 := by
  rcases lt_or_gt_of_ne h with hlt | hgt
  · have hq : (a : ℚ) + 1 ≤ (b : ℚ) := by exact_mod_cast Nat.succ_le_of_lt hlt
    nlinarith
  · have hq : (b : ℚ) + 1 ≤ (a : ℚ) := by exact_mod_cast Nat.succ_le_of_lt hgt
    nlinarith

theorem Scraper.grid_dist2_lt (x0 y0 sx sy : ℚ) (hsx : 3 < sx) (hsy : 3 < sy)
    {i j i2 j2 : ℕ}
    (h : dist2 (gridCross x0 y0 sx sy i j) (gridCross x0 y0 sx sy i2 j2) <
      qmul Tolerance Tolerance) :
    i = i2 ∧ j = j2 := by
  simp only [dist2, gridCross, qadd_eq, qsub_eq, qmul_eq, Tolerance] at h
  have e1 : (x0 + (j : ℚ) * sx) - (x0 + (j2 : ℚ) * sx) = ((j : ℚ) - (j2 : ℚ)) * sx := by
    ring
  have e2 : (y0 + (i : ℚ) * sy) - (y0 + (i2 : ℚ) * sy) = ((i : ℚ) - (i2 : ℚ)) * sy := by
    ring
  rw [e1, e2] at h
  constructor
  · by_contra hne
    have h1 := Scraper.one_le_cast_sub_sq hne
    have hsy0 : (0 : ℚ) ≤ sy * sy := mul_self_nonneg sy
    have h2 : (1 : ℚ) * (sy * sy) ≤ ((i : ℚ) - (i2 : ℚ)) ^ 2 * (sy * sy) :=
      mul_le_mul_of_nonneg_right h1 hsy0
    have h3 : ((i : ℚ) - (i2 : ℚ)) ^ 2 * (sy * sy) =
        ((i : ℚ) - (i2 : ℚ)) * sy * (((i : ℚ) - (i2 : ℚ)) * sy) := by ring
    have hsy2 : (9 : ℚ) < sy * sy := by nlinarith
    have hA : (0 : ℚ) ≤ ((j : ℚ) - (j2 : ℚ)) * sx * (((j : ℚ) - (j2 : ℚ)) * sx) :=
      mul_self_nonneg _
    linarith
  · by_contra hne
    have h1 := Scraper.one_le_cast_sub_sq hne
    have hsx0 : (0 : ℚ) ≤ sx * sx := mul_self_nonneg sx
    have h2 : (1 : ℚ) * (sx * sx) ≤ ((j : ℚ) - (j2 : ℚ)) ^ 2 * (sx * sx) :=
      mul_le_mul_of_nonneg_right h1 hsx0
    have h3 : ((j : ℚ) - (j2 : ℚ)) ^ 2 * (sx * sx) =
        ((j : ℚ) - (j2 : ℚ)) * sx * (((j : ℚ) - (j2 : ℚ)) * sx) := by ring
    have hsx2 : (9 : ℚ) < sx * sx := by nlinarith
    have hA : (0 : ℚ) ≤ ((i : ℚ) - (i2 : ℚ)) * sy * (((i : ℚ) - (i2 : ℚ)) * sy) :=
      mul_self_nonneg _
    linarith

theorem Scraper.dist2_self (p : Point) : dist2 p p = 0 := by
  simp [dist2]

theorem Scraper.gridCross_inj (x0 y0 sx sy : ℚ) (hsx : 3 < sx) (hsy : 3 < sy)
    {i j i2 j2 : ℕ}
    (h : gridCross x0 y0 sx sy i j = gridCross x0 y0 sx sy i2 j2) :
    i = i2 ∧ j = j2 := by
  apply Scraper.grid_dist2_lt x0 y0 sx sy hsx hsy
  rw [h, Scraper.dist2_self]
  show (0 : ℚ) < qmul Tolerance Tolerance
  simp [Tolerance]

theorem Scraper.addPoint_grid (x0 y0 sx sy : ℚ) (N M : ℕ)
    (hsx : 3 < sx) (hsy : 3 < sy)
    (pts : List Point) (hpts : ∀ p ∈ pts, isGridPoint x0 y0 sx sy N M p)
    (c : Point) (hc : isGridPoint x0 y0 sx sy N M c) :
    addPoint pts c = if c ∈ pts then pts else pts ++ [c] := by
  unfold addPoint
  by_cases hmem : c ∈ pts
  · rw [if_pos hmem, if_pos]
    refine List.any_eq_true.2 ⟨c, hmem, ?_⟩
    simp [Scraper.dist2_self, Tolerance]
  · rw [if_neg hmem, if_neg]
    intro hany
    rcases List.any_eq_true.1 hany with ⟨p, hp, hdist⟩
    rcases hc with ⟨i, hi, j, hj, rfl⟩
    rcases hpts p hp with ⟨i2, hi2, j2, hj2, rfl⟩
    have := Scraper.grid_dist2_lt x0 y0 sx sy hsx hsy (of_decide_eq_true hdist)
    rcases this with ⟨rfl, rfl⟩
    exact hmem hp

theorem Scraper.pairStep_grid_eq (x0 y0 sx sy : ℚ) {N M : ℕ} (i j : ℕ)
    (hN : 2 ≤ N) (hM : 2 ≤ M) (hiN : i < N) (hjM : j < M)
    (hsx : 0 < sx) (hsy : 0 < sy) (pts : List Point) :
    pairStep pts (gridH x0 y0 sx sy M i) (gridV x0 y0 sx sy N j) =
      addPoint (addPoint (addPoint (addPoint (addPoint pts
        (gridCross x0 y0 sx sy i j))
        ⟨x0, y0 + (i : ℚ) * sy⟩)
        ⟨x0 + ((M - 1 : ℕ) : ℚ) * sx, y0 + (i : ℚ) * sy⟩)
        ⟨x0 + (j : ℚ) * sx, y0⟩)
        ⟨x0 + (j : ℚ) * sx, y0 + ((N - 1 : ℕ) : ℚ) * sy⟩ := by
  unfold pairStep
  rw [Scraper.grid_intersect x0 y0 sx sy i j hN hM hiN hjM hsx hsy]
  simp only [Option.isSome_some, Bool.or_true, if_pos]
  rfl

theorem Scraper.addPoint_inv (x0 y0 sx sy : ℚ) (N M : ℕ)
    (hsx : 3 < sx) (hsy : 3 < sy) (pts : List Point)
    (hpts : ∀ p ∈ pts, isGridPoint x0 y0 sx sy N M p) (hnd : pts.Nodup)
    (c : Point) (hc : isGridPoint x0 y0 sx sy N M c) :
    (∀ p ∈ addPoint pts c, isGridPoint x0 y0 sx sy N M p) ∧
    (addPoint pts c).Nodup ∧
    (∀ p ∈ pts, p ∈ addPoint pts c) ∧ c ∈ addPoint pts c := by
  rw [Scraper.addPoint_grid x0 y0 sx sy N M hsx hsy pts hpts c hc]
  by_cases hmem : c ∈ pts
  · rw [if_pos hmem]
    exact ⟨hpts, hnd, fun p hp => hp, hmem⟩
  · rw [if_neg hmem]
    refine ⟨?_, ?_, ?_, ?_⟩
    · intro p hp
      rcases List.mem_append.1 hp with hp1 | hp2
      · exact hpts p hp1
      · rw [List.mem_singleton.1 hp2]
        exact hc
    · refine List.Nodup.append hnd (by simp) ?_
      intro a ha hb
      rw [List.mem_singleton.1 hb] at ha
      exact hmem ha
    · exact fun p hp => List.mem_append_left _ hp
    · exact List.mem_append_right _ (by simp)

theorem Scraper.pairStep_grid_inv (x0 y0 sx sy : ℚ) {N M : ℕ} (i j : ℕ)
    (hN : 2 ≤ N) (hM : 2 ≤ M) (hiN : i < N) (hjM : j < M)
    (hsx : 3 < sx) (hsy : 3 < sy) (pts : List Point)
    (hpts : ∀ p ∈ pts, isGridPoint x0 y0 sx sy N M p) (hnd : pts.Nodup) :
    (∀ p ∈ pairStep pts (gridH x0 y0 sx sy M i) (gridV x0 y0 sx sy N j),
      isGridPoint x0 y0 sx sy N M p) ∧
    (pairStep pts (gridH x0 y0 sx sy M i) (gridV x0 y0 sx sy N j)).Nodup ∧
    (∀ p ∈ pts, p ∈ pairStep pts (gridH x0 y0 sx sy M i) (gridV x0 y0 sx sy N j)) ∧
    gridCross x0 y0 sx sy i j ∈
      pairStep pts (gridH x0 y0 sx sy M i) (gridV x0 y0 sx sy N j) := by
  rw [Scraper.pairStep_grid_eq x0 y0 sx sy i j hN hM hiN hjM
    (by linarith) (by linarith) pts]
  have hc0 : isGridPoint x0 y0 sx sy N M (gridCross x0 y0 sx sy i j) :=
    ⟨i, hiN, j, hjM, rfl⟩
  have hc1 : isGridPoint x0 y0 sx sy N M ⟨x0, y0 + (i : ℚ) * sy⟩ :=
    ⟨i, hiN, 0, by omega, by simp [gridCross]⟩
  have hc2 : isGridPoint x0 y0 sx sy N M
      ⟨x0 + ((M - 1 : ℕ) : ℚ) * sx, y0 + (i : ℚ) * sy⟩ :=
    ⟨i, hiN, M - 1, by omega, rfl⟩
  have hc3 : isGridPoint x0 y0 sx sy N M ⟨x0 + (j : ℚ) * sx, y0⟩ :=
    ⟨0, by omega, j, hjM, by simp [gridCross]⟩
  have hc4 : isGridPoint x0 y0 sx sy N M
      ⟨x0 + (j : ℚ) * sx, y0 + ((N - 1 : ℕ) : ℚ) * sy⟩ :=
    ⟨N - 1, by omega, j, hjM, rfl⟩
  obtain ⟨g0, n0, m0, in0⟩ :=
    Scraper.addPoint_inv x0 y0 sx sy N M hsx hsy pts hpts hnd _ hc0
  obtain ⟨g1, n1, m1, in1⟩ :=
    Scraper.addPoint_inv x0 y0 sx sy N M hsx hsy _ g0 n0 _ hc1
  obtain ⟨g2, n2, m2, in2⟩ :=
    Scraper.addPoint_inv x0 y0 sx sy N M hsx hsy _ g1 n1 _ hc2
  obtain ⟨g3, n3, m3, in3⟩ :=
    Scraper.addPoint_inv x0 y0 sx sy N M hsx hsy _ g2 n2 _ hc3
  obtain ⟨g4, n4, m4, in4⟩ :=
    Scraper.addPoint_inv x0 y0 sx sy N M hsx hsy _ g3 n3 _ hc4
  exact ⟨g4, n4, fun p hp => m4 _ (m3 _ (m2 _ (m1 _ (m0 p hp)))),
    m4 _ (m3 _ (m2 _ (m1 _ in0)))⟩

theorem Scraper.innerFold_grid_inv (x0 y0 sx sy : ℚ) {N M : ℕ} (i : ℕ)
    (hN : 2 ≤ N) (hM : 2 ≤ M) (hiN : i < N) (hsx : 3 < sx) (hsy : 3 < sy) :
    ∀ (js : List ℕ) (pts : List Point), (∀ j ∈ js, j < M) →
      (∀ p ∈ pts, isGridPoint x0 y0 sx sy N M p) → pts.Nodup →
      (∀ p ∈ js.foldl (fun pts2 j =>
          pairStep pts2 (gridH x0 y0 sx sy M i) (gridV x0 y0 sx sy N j)) pts,
        isGridPoint x0 y0 sx sy N M p) ∧
      (js.foldl (fun pts2 j =>
          pairStep pts2 (gridH x0 y0 sx sy M i) (gridV x0 y0 sx sy N j)) pts).Nodup ∧
      (∀ p ∈ pts, p ∈ js.foldl (fun pts2 j =>
          pairStep pts2 (gridH x0 y0 sx sy M i) (gridV x0 y0 sx sy N j)) pts) ∧
      (∀ j ∈ js, gridCross x0 y0 sx sy i j ∈ js.foldl (fun pts2 j2 =>
          pairStep pts2 (gridH x0 y0 sx sy M i) (gridV x0 y0 sx sy N j2)) pts) := by
  intro js
  induction js with
  | nil =>
    intro pts hjs hpts hnd
    exact ⟨hpts, hnd, fun p hp => hp, by simp⟩
  | cons j js2 ih =>
    intro pts hjs hpts hnd
    obtain ⟨g1, n1, m1, in1⟩ := Scraper.pairStep_grid_inv x0 y0 sx sy i j hN hM hiN
      (hjs j (List.mem_cons_self ..)) hsx hsy pts hpts hnd
    obtain ⟨G, ND, MONO, ALLJ⟩ := ih _ (fun b hb => hjs b (List.mem_cons_of_mem _ hb)) g1 n1
    refine ⟨G, ND, fun p hp => MONO _ (m1 p hp), ?_⟩
    intro b hb
    rcases List.mem_cons.1 hb with rfl | hb2
    · exact MONO _ in1
    · exact ALLJ b hb2

theorem Scraper.outerFold_grid_inv (x0 y0 sx sy : ℚ) {N M : ℕ}
    (hN : 2 ≤ N) (hM : 2 ≤ M) (hsx : 3 < sx) (hsy : 3 < sy) :
    ∀ (is : List ℕ) (pts : List Point), (∀ i ∈ is, i < N) →
      (∀ p ∈ pts, isGridPoint x0 y0 sx sy N M p) → pts.Nodup →
      (∀ p ∈ is.foldl (fun pts2 i => (List.range M).foldl (fun pts3 j =>
          pairStep pts3 (gridH x0 y0 sx sy M i) (gridV x0 y0 sx sy N j)) pts2) pts,
        isGridPoint x0 y0 sx sy N M p) ∧
      (is.foldl (fun pts2 i => (List.range M).foldl (fun pts3 j =>
          pairStep pts3 (gridH x0 y0 sx sy M i) (gridV x0 y0 sx sy N j)) pts2) pts).Nodup ∧
      (∀ p ∈ pts, p ∈ is.foldl (fun pts2 i => (List.range M).foldl (fun pts3 j =>
          pairStep pts3 (gridH x0 y0 sx sy M i) (gridV x0 y0 sx sy N j)) pts2) pts) ∧
      (∀ i ∈ is, ∀ j, j < M → gridCross x0 y0 sx sy i j ∈
        is.foldl (fun pts2 i2 => (List.range M).foldl (fun pts3 j =>
          pairStep pts3 (gridH x0 y0 sx sy M i2) (gridV x0 y0 sx sy N j)) pts2) pts) := by
  intro is
  induction is with
  | nil =>
    intro pts his hpts hnd
    exact ⟨hpts, hnd, fun p hp => hp, by simp⟩
  | cons i is2 ih =>
    intro pts his hpts hnd
    obtain ⟨g1, n1, m1, in1⟩ := Scraper.innerFold_grid_inv x0 y0 sx sy i hN hM
      (his i (List.mem_cons_self ..)) hsx hsy (List.range M) pts
      (fun j hj => List.mem_range.1 hj) hpts hnd
    obtain ⟨G, ND, MONO, ALLIJ⟩ := ih _ (fun b hb => his b (List.mem_cons_of_mem _ hb)) g1 n1
    refine ⟨G, ND, fun p hp => MONO _ (m1 p hp), ?_⟩
    intro b hb j hj
    rcases List.mem_cons.1 hb with rfl | hb2
    · exact MONO _ (in1 j (List.mem_range.2 hj))
    · exact ALLIJ b hb2 j hj

theorem Scraper.latticePoints_grid (x0 y0 sx sy : ℚ) {N M : ℕ}
    (hN : 2 ≤ N) (hM : 2 ≤ M) (hsx : 3 < sx) (hsy : 3 < sy) :
    (∀ p ∈ latticePoints ((List.range N).map (gridH x0 y0 sx sy M))
        ((List.range M).map (gridV x0 y0 sx sy N)),
      isGridPoint x0 y0 sx sy N M p) ∧
    (latticePoints ((List.range N).map (gridH x0 y0 sx sy M))
        ((List.range M).map (gridV x0 y0 sx sy N))).Nodup ∧
    (∀ i, i < N → ∀ j, j < M → gridCross x0 y0 sx sy i j ∈
      latticePoints ((List.range N).map (gridH x0 y0 sx sy M))
        ((List.range M).map (gridV x0 y0 sx sy N))) := by
  unfold latticePoints
  simp only [List.foldl_map]
  obtain ⟨G, ND, MONO, ALL⟩ := Scraper.outerFold_grid_inv x0 y0 sx sy hN hM hsx hsy
    (List.range N) [] (fun i hi => List.mem_range.1 hi) (by simp) List.nodup_nil
  exact ⟨G, ND, fun i hi j hj => ALL i (List.mem_range.2 hi) j hj⟩

theorem Scraper.closestRightPoint_isSome_iff (points : List Point) (p : Point) :
    (closestRightPoint points p).isSome = true ↔
      ∃ q ∈ points, qabs (qsub q.y p.y) < Tolerance ∧ q.x > p.x := by
  have aux : ∀ (l : List Point) (acc : Option Point),
      (l.foldl (fun previous current =>
        if (decide (qabs (qsub current.y p.y) < Tolerance) &&
            decide (current.x > p.x) &&
            (match previous with
             | none => true
             | some prev => decide (qsub current.x p.x < qsub prev.x p.x))) = true then
          some current
        else previous) acc).isSome = true ↔
      (acc.isSome = true ∨ ∃ q ∈ l,
        qabs (qsub q.y p.y) < Tolerance ∧ q.x > p.x) := by
    intro l
    induction l with
    | nil => intro acc; simp
    | cons c l2 ih =>
      intro acc
      rw [List.foldl_cons, ih]
      have hstep : ((if (decide (qabs (qsub c.y p.y) < Tolerance) &&
            decide (c.x > p.x) &&
            (match acc with
             | none => true
             | some prev => decide (qsub c.x p.x < qsub prev.x p.x))) = true then
          some c
        else acc).isSome = true) ↔
          (acc.isSome = true ∨ (qabs (qsub c.y p.y) < Tolerance ∧ c.x > p.x)) := by
        cases acc with
        | none => simp
        | some prev => split <;> simp
      rw [hstep]
      simp only [List.mem_cons]
      constructor
      · rintro (⟨h | h⟩ | ⟨q, hq, h1, h2⟩)
        · exact Or.inl h
        · exact Or.inr ⟨c, Or.inl rfl, h⟩
        · exact Or.inr ⟨q, Or.inr hq, h1, h2⟩
      · rintro (h | ⟨q, rfl | hq, h1, h2⟩)
        · exact Or.inl (Or.inl h)
        · exact Or.inl (Or.inr ⟨h1, h2⟩)
        · exact Or.inr ⟨q, hq, h1, h2⟩
  rw [closestRightPoint, aux points none]
  simp

theorem Scraper.closestDownPoint_isSome_iff (points : List Point) (p : Point) :
    (closestDownPoint points p).isSome = true ↔
      ∃ q ∈ points, qabs (qsub q.x p.x) < Tolerance ∧ q.y > p.y := by
  have aux : ∀ (l : List Point) (acc : Option Point),
      (l.foldl (fun previous current =>
        if (decide (qabs (qsub current.x p.x) < Tolerance) &&
            decide (current.y > p.y) &&
            (match previous with
             | none => true
             | some prev => decide (qsub current.y p.y < qsub prev.y p.y))) = true then
          some current
        else previous) acc).isSome = true ↔
      (acc.isSome = true ∨ ∃ q ∈ l,
        qabs (qsub q.x p.x) < Tolerance ∧ q.y > p.y) := by
    intro l
    induction l with
    | nil => intro acc; simp
    | cons c l2 ih =>
      intro acc
      rw [List.foldl_cons, ih]
      have hstep : ((if (decide (qabs (qsub c.x p.x) < Tolerance) &&
            decide (c.y > p.y) &&
            (match acc with
             | none => true
             | some prev => decide (qsub c.y p.y < qsub prev.y p.y))) = true then
          some c
        else acc).isSome = true) ↔
          (acc.isSome = true ∨ (qabs (qsub c.x p.x) < Tolerance ∧ c.y > p.y)) := by
        cases acc with
        | none => simp
        | some prev => split <;> simp
      rw [hstep]
      simp only [List.mem_cons]
      constructor
      · rintro (⟨h | h⟩ | ⟨q, hq, h1, h2⟩)
        · exact Or.inl h
        · exact Or.inr ⟨c, Or.inl rfl, h⟩
        · exact Or.inr ⟨q, Or.inr hq, h1, h2⟩
      · rintro (h | ⟨q, rfl | hq, h1, h2⟩)
        · exact Or.inl (Or.inl h)
        · exact Or.inl (Or.inr ⟨h1, h2⟩)
        · exact Or.inr ⟨q, hq, h1, h2⟩
  rw [closestDownPoint, aux points none]
  simp

theorem Scraper.qabs_eq (a : ℚ) : qabs a = |a| := by
  rw [qabs]
  split
  · exact (abs_of_neg (by assumption)).symm
  · exact (abs_of_nonneg (not_lt.1 (by assumption))).symm

theorem Scraper.one_le_abs_cast_sub {a b : ℕ} (h : a ≠ b) :
    (1 : ℚ) ≤ |(a : ℚ) - (b : ℚ)| := by
  have h2 := Scraper.one_le_cast_sub_sq h
  nlinarith [abs_nonneg ((a : ℚ) - (b : ℚ)), sq_abs ((a : ℚ) - (b : ℚ))]

theorem Scraper.grid_neighbor_iff (x0 y0 sx sy : ℚ) {N M : ℕ}
    (hsx : 3 < sx) (hsy : 3 < sy) (P : List Point)
    (hmem : ∀ p, p ∈ P ↔ isGridPoint x0 y0 sx sy N M p)
    (i j : ℕ) (hi : i < N) (hj : j < M) :
    ((closestRightPoint P (gridCross x0 y0 sx sy i j)).isSome = true ↔ j + 1 < M) ∧
    ((closestDownPoint P (gridCross x0 y0 sx sy i j)).isSome = true ↔ i + 1 < N) := by
  constructor
  · rw [Scraper.closestRightPoint_isSome_iff]
    constructor
    · rintro ⟨q, hq, hy, hx⟩
      rcases (hmem q).1 hq with ⟨i2, hi2, j2, hj2, rfl⟩
      simp only [gridCross, Scraper.qabs_eq, qsub_eq] at hy hx
      have hyd : (y0 + (i2 : ℚ) * sy) - (y0 + (i : ℚ) * sy) = ((i2 : ℚ) - i) * sy := by
        ring
      rw [hyd] at hy
      have hi2i : i2 = i := by
        by_contra hne
        have h1 := Scraper.one_le_abs_cast_sub hne
        rw [abs_mul, abs_of_pos (show (0:ℚ) < sy by linarith)] at hy
        simp only [Tolerance] at hy
        have h2 : 1 * sy ≤ |(i2 : ℚ) - (i : ℚ)| * sy :=
          mul_le_mul_of_nonneg_right h1 (by linarith)
        linarith
      have hj2j : j < j2 := by
        have : (j : ℚ) * sx < (j2 : ℚ) * sx := by
          show (j:ℚ) * sx < (j2:ℚ) * sx
          have := hx
          simp only [gridCross] at this
          linarith
        have hc : (j : ℚ) < (j2 : ℚ) :=
          lt_of_mul_lt_mul_right this (by linarith)
        exact_mod_cast hc
      omega
    · intro hjM
      refine ⟨gridCross x0 y0 sx sy i (j + 1), (hmem _).2 ⟨i, hi, j + 1, hjM, rfl⟩, ?_, ?_⟩
      · simp only [gridCross, Scraper.qabs_eq, qsub_eq]
        rw [show (y0 + (i : ℚ) * sy) - (y0 + (i : ℚ) * sy) = 0 by ring]
        simp [Tolerance]
      · show x0 + ((j + 1 : ℕ) : ℚ) * sx > x0 + (j : ℚ) * sx
        push_cast
        nlinarith
  · rw [Scraper.closestDownPoint_isSome_iff]
    constructor
    · rintro ⟨q, hq, hxq, hyq⟩
      rcases (hmem q).1 hq with ⟨i2, hi2, j2, hj2, rfl⟩
      simp only [gridCross, Scraper.qabs_eq, qsub_eq] at hxq hyq
      have hxd : (x0 + (j2 : ℚ) * sx) - (x0 + (j : ℚ) * sx) = ((j2 : ℚ) - j) * sx := by
        ring
      rw [hxd] at hxq
      have hj2j : j2 = j := by
        by_contra hne
        have h1 := Scraper.one_le_abs_cast_sub hne
        rw [abs_mul, abs_of_pos (show (0:ℚ) < sx by linarith)] at hxq
        simp only [Tolerance] at hxq
        have h2 : 1 * sx ≤ |(j2 : ℚ) - (j : ℚ)| * sx :=
          mul_le_mul_of_nonneg_right h1 (by linarith)
        linarith
      have hi2i : i < i2 := by
        have : (i : ℚ) * sy < (i2 : ℚ) * sy := by linarith
        have hc : (i : ℚ) < (i2 : ℚ) :=
          lt_of_mul_lt_mul_right this (by linarith)
        exact_mod_cast hc
      omega
    · intro hiN
      refine ⟨gridCross x0 y0 sx sy (i + 1) j, (hmem _).2 ⟨i + 1, hiN, j, hj, rfl⟩, ?_, ?_⟩
      · simp only [gridCross, Scraper.qabs_eq, qsub_eq]
        rw [show (x0 + (j : ℚ) * sx) - (x0 + (j : ℚ) * sx) = 0 by ring]
        simp [Tolerance]
      · show y0 + ((i + 1 : ℕ) : ℚ) * sy > y0 + (i : ℚ) * sy
        push_cast
        nlinarith

theorem Scraper.cellsFromPoints_length (points : List Point) :
    (cellsFromPoints points).length = points.countP (fun p =>
      (closestRightPoint points p).isSome && (closestDownPoint points p).isSome) := by
  unfold cellsFromPoints
  have aux : ∀ (l : List Point) (acc : List Cell),
      (l.foldl (fun cells point =>
        match closestRightPoint points point, closestDownPoint points point with
        | some rightPoint, some downPoint =>
          cells ++ [⟨point.x, point.y, qsub rightPoint.x point.x,
                     qsub downPoint.y point.y, []⟩]
        | _, _ => cells) acc).length =
      acc.length + l.countP (fun p =>
        (closestRightPoint points p).isSome && (closestDownPoint points p).isSome) := by
    intro l
    induction l with
    | nil => intro acc; simp
    | cons p l2 ih =>
      intro acc
      rw [List.foldl_cons, ih, List.countP_cons]
      rcases hr : closestRightPoint points p with _ | rp <;>
        rcases hd : closestDownPoint points p with _ | dp <;>
          simp [hr, hd, List.length_append] <;> omega
  rw [aux points []]
  simp

theorem Scraper.countP_flatten {α : Type} (p : α → Bool) :
    ∀ L : List (List α), (L.flatten).countP p = (L.map (List.countP p)).sum := by
  intro L
  induction L with
  | nil => rfl
  | cons l L2 ih => simp [List.flatten_cons, List.countP_append, ih]

theorem Scraper.gridCrossList_nodup (x0 y0 sx sy : ℚ) (N M : ℕ)
    (hsx : 3 < sx) (hsy : 3 < sy) :
    (gridCrossList x0 y0 sx sy N M).Nodup := by
  unfold gridCrossList
  rw [List.nodup_flatten]
  constructor
  · intro l hl
    rcases List.mem_map.1 hl with ⟨i, hi, rfl⟩
    refine List.Nodup.map ?_ (List.nodup_range ..)
    intro j1 j2 hj
    exact (Scraper.gridCross_inj x0 y0 sx sy hsx hsy hj).2
  · rw [List.pairwise_map]
    refine List.Pairwise.imp ?_ (List.pairwise_lt_range _)
    intro i1 i2 hi12
    intro a ha1 ha2
    rcases List.mem_map.1 ha1 with ⟨j1, hj1, rfl⟩
    rcases List.mem_map.1 ha2 with ⟨j2, hj2, heq⟩
    have := (Scraper.gridCross_inj x0 y0 sx sy hsx hsy heq.symm).1
    omega

theorem Scraper.gridCrossList_mem (x0 y0 sx sy : ℚ) (N M : ℕ) (p : Point) :
    p ∈ gridCrossList x0 y0 sx sy N M ↔ isGridPoint x0 y0 sx sy N M p := by
  unfold gridCrossList isGridPoint
  constructor
  · intro hp
    rcases List.mem_flatten.1 hp with ⟨l, hl, hpl⟩
    rcases List.mem_map.1 hl with ⟨i, hi, rfl⟩
    rcases List.mem_map.1 hpl with ⟨j, hj, rfl⟩
    exact ⟨i, List.mem_range.1 hi, j, List.mem_range.1 hj, rfl⟩
  · rintro ⟨i, hi, j, hj, rfl⟩
    refine List.mem_flatten.2 ⟨(List.range M).map fun j2 => gridCross x0 y0 sx sy i j2,
      List.mem_map.2 ⟨i, List.mem_range.2 hi, rfl⟩,
      List.mem_map.2 ⟨j, List.mem_range.2 hj, rfl⟩⟩

theorem Scraper.countP_range_succ_lt (n : ℕ) :
    (List.range n).countP (fun j => decide (j + 1 < n)) = n - 1 := by
  cases n with
  | zero => rfl
  | succ m =>
    rw [List.range_succ, List.countP_append]
    have h1 : (List.range m).countP (fun j => decide (j + 1 < m + 1)) =
        (List.range m).countP (fun _ => true) := by
      apply List.countP_congr
      intro a ha
      simp [Nat.lt_succ_of_lt (List.mem_range.1 ha), List.mem_range.1 ha]
    rw [h1]
    simp [List.countP_cons]

theorem Scraper.sum_map_range_if (n m : ℕ) :
    (((List.range n).map (fun i => if i + 1 < n then m else 0)).sum) = (n - 1) * m := by
  cases n with
  | zero => simp
  | succ k =>
    rw [List.range_succ, List.map_append, List.sum_append]
    have h1 : (List.range k).map (fun i => if i + 1 < k + 1 then m else 0) =
        (List.range k).map (fun _ => m) := by
      apply List.map_congr_left
      intro a ha
      rw [if_pos (Nat.succ_lt_succ (List.mem_range.1 ha))]
    rw [h1]
    simp [List.map_const, List.sum_replicate, Nat.succ_sub_one]

theorem Scraper.gridCrossList_countP (x0 y0 sx sy : ℚ) (N M : ℕ) (cond : Point → Bool)
    (h : ∀ i, i < N → ∀ j, j < M →
      (cond (gridCross x0 y0 sx sy i j) = true ↔ (i + 1 < N ∧ j + 1 < M))) :
    (gridCrossList x0 y0 sx sy N M).countP cond = (N - 1) * (M - 1) := by
  unfold gridCrossList
  rw [Scraper.countP_flatten, List.map_map]
  have h1 : (List.range N).map (List.countP cond ∘ fun i => (List.range M).map
      (fun j => gridCross x0 y0 sx sy i j)) =
      (List.range N).map (fun i => if i + 1 < N then M - 1 else 0) := by
    apply List.map_congr_left
    intro i hi
    have hiN : i < N := List.mem_range.1 hi
    show ((List.range M).map (fun j => gridCross x0 y0 sx sy i j)).countP cond = _
    rw [List.countP_map]
    by_cases hi1 : i + 1 < N
    · rw [if_pos hi1]
      have h2 : (List.range M).countP (cond ∘ fun j => gridCross x0 y0 sx sy i j) =
          (List.range M).countP (fun j => decide (j + 1 < M)) := by
        apply List.countP_congr
        intro j hj
        have hiff := h i hiN j (List.mem_range.1 hj)
        show cond (gridCross x0 y0 sx sy i j) = true ↔ decide (j + 1 < M) = true
        rw [decide_eq_true_eq]
        exact ⟨fun hc => (hiff.1 hc).2, fun hj1 => hiff.2 ⟨hi1, hj1⟩⟩
      rw [h2, Scraper.countP_range_succ_lt]
    · rw [if_neg hi1]
      rw [List.countP_eq_zero]
      intro j hj
      show ¬ cond (gridCross x0 y0 sx sy i j) = true
      intro hc
      exact hi1 ((h i hiN j (List.mem_range.1 hj)).1 hc).1
  rw [h1, Scraper.sum_map_range_if]

/-- C8: on a synthetic page whose line-candidates are exactly `N` horizontal
and `M` vertical evenly spaced full-length rules (`N, M ≥ 2`, both spacings
strictly above the tolerance, both rule lengths at least 10), grid
reconstruction yields exactly `(N-1)*(M-1)` cells. -/
theorem Scraper.c8_grid_cell_count (x0 y0 sx sy : ℚ) (N M : ℕ)
    (hN : 2 ≤ N) (hM : 2 ≤ M)
    (hsx : Tolerance < sx) (hsy : Tolerance < sy)
    (hw : 10 ≤ ((M - 1 : ℕ) : ℚ) * sx) (hh : 10 ≤ ((N - 1 : ℕ) : ℚ) * sy) :
    (parseCellsFromRects (gridRects x0 y0 sx sy N M)).length = (N - 1) * (M - 1) := by
  have hsx3 : (3 : ℚ) < sx := by simpa [Tolerance] using hsx
  have hsy3 : (3 : ℚ) < sy := by simpa [Tolerance] using hsy
  obtain ⟨hcl1, hcl2⟩ := Scraper.grid_classify x0 y0 sx sy N M hw hh
  unfold parseCellsFromRects
  rw [hcl1, hcl2, Scraper.grid_sortH x0 y0 sx sy N M (by linarith),
    Scraper.grid_sortV x0 y0 sx sy N M (by linarith)]
  obtain ⟨G, ND, ALL⟩ := Scraper.latticePoints_grid x0 y0 sx sy hN hM hsx3 hsy3
  have hmem : ∀ p, p ∈ latticePoints ((List.range N).map (gridH x0 y0 sx sy M))
      ((List.range M).map (gridV x0 y0 sx sy N)) ↔
      isGridPoint x0 y0 sx sy N M p := by
    intro p
    refine ⟨G p, ?_⟩
    rintro ⟨i, hi, j, hj, rfl⟩
    exact ALL i hi j hj
  rw [show (sortCells (cellsFromPoints (latticePoints
      ((List.range N).map (gridH x0 y0 sx sy M))
      ((List.range M).map (gridV x0 y0 sx sy N))))).length =
      (cellsFromPoints (latticePoints
      ((List.range N).map (gridH x0 y0 sx sy M))
      ((List.range M).map (gridV x0 y0 sx sy N)))).length from
    (List.perm_insertionSort _ _).length_eq]
  rw [Scraper.cellsFromPoints_length]
  have hperm : (latticePoints ((List.range N).map (gridH x0 y0 sx sy M))
      ((List.range M).map (gridV x0 y0 sx sy N))).Perm
      (gridCrossList x0 y0 sx sy N M) :=
    (List.perm_ext_iff_of_nodup ND
      (Scraper.gridCrossList_nodup x0 y0 sx sy N M hsx3 hsy3)).2
      (fun p => (hmem p).trans (Scraper.gridCrossList_mem x0 y0 sx sy N M p).symm)
  rw [hperm.countP_eq]
  apply Scraper.gridCrossList_countP
  intro i hi j hj
  obtain ⟨hr, hd⟩ := Scraper.grid_neighbor_iff x0 y0 sx sy hsx3 hsy3 _ hmem i j hi hj
  rw [Bool.and_eq_true, hr, hd]
  exact and_comm

/-- C8 witness: the 2x2 grid with spacing 10 yields exactly one cell. -/
theorem Scraper.c8_grid_cell_count_witness :
    (parseCellsFromRects (gridRects 0 0 10 10 2 2)).length = 1 := by
  have h := Scraper.c8_grid_cell_count 0 0 10 10 2 2 (by norm_num) (by norm_num)
    (by norm_num [Tolerance]) (by norm_num [Tolerance]) (by norm_num) (by norm_num)
  simpa using h
